import Mathlib

/-!
Verification development for the `multi3` forwarding proxy
(sources: `src/handler.rs`, `src/handle.rs`, `src/config.rs`,
`src/event.rs`, `src/main.rs`).

The Rust sources are shallowly embedded:

* byte buffers become `List Nat` (each element a byte value);
* machine integers become `Nat` with explicit modular arithmetic where
  the source relies on wrap-around (`u16::to_be_bytes` / `from_be_bytes`);
* fallible Rust code returns `Option`; code that can panic (out-of-bounds
  slice indexing, `unwrap`, `expect`) returns the `MayPanic` wrapper so
  that panics are explicit values;
* the I/O environment of a connection handler (bytes read from the
  client, DNS results, per-candidate connect outcomes, relay read
  results, UDP datagrams) is an explicit `Oracle` record, and the
  handler becomes a pure function from the oracle to the list of
  observable actions (events sent on the event bus, bytes written to
  the client or to the upstream socket).

The repository ships two generations of the connection handler:
`src/handler.rs` (current, used via `handle`) and `src/handle.rs`
(older variant with `inner_handle`/`copy_up`/`copy_down`).  Both are
embedded where the claims cite both.
-/

/-! ## Panics made explicit -/

/-- Result of running Rust code that may panic: either a value or a panic
(out-of-bounds slice index, `unwrap` of `None`, `expect`). -/
inductive MayPanic (α : Type) where
  | panics : MayPanic α
  | ret : α → MayPanic α
deriving DecidableEq, Repr

/-! ## Byte-level helpers shared by the codecs -/

/-- Big-endian decoding of the first two bytes, as in
`u16::from_be_bytes`; the callers only use it behind length guards, so
the default for shorter lists is irrelevant. -/
def be16 : List Nat → Nat
  | b0 :: b1 :: _ => b0 * 256 + b1
  | _ => 0

/-- Big-endian encoding of a `u16` port, as in `u16::to_be_bytes`. -/
def portBytes (p : Nat) : List Nat := [p / 256 % 256, p % 256]

/-- Is `b` a UTF-8 continuation byte (`0x80..=0xBF`)? -/
def utf8Cont (b : Nat) : Bool := decide (0x80 ≤ b ∧ b ≤ 0xBF)

/-- UTF-8 validity of a byte sequence, as decided by
`str::from_utf8(..).is_ok()` / `String::from_utf8(..).is_ok()`:
the standard table (RFC 3629), rejecting overlongs, surrogates and
values above U+10FFFF, and rejecting truncated trailing sequences. -/
def utf8Valid : List Nat → Bool
  | [] => true
  | b :: rest =>
    if b ≤ 0x7F then utf8Valid rest
    else if b < 0xC2 then false
    else if b ≤ 0xDF then
      match rest with
      | b1 :: r => utf8Cont b1 && utf8Valid r
      | [] => false
    else if b ≤ 0xEF then
      match rest with
      | b1 :: b2 :: r =>
        (if b = 0xE0 then decide (0xA0 ≤ b1 ∧ b1 ≤ 0xBF)
         else if b = 0xED then decide (0x80 ≤ b1 ∧ b1 ≤ 0x9F)
         else utf8Cont b1) && utf8Cont b2 && utf8Valid r
      | _ => false
    else if b ≤ 0xF4 then
      match rest with
      | b1 :: b2 :: b3 :: r =>
        (if b = 0xF0 then decide (0x90 ≤ b1 ∧ b1 ≤ 0xBF)
         else if b = 0xF4 then decide (0x80 ≤ b1 ∧ b1 ≤ 0x8F)
         else utf8Cont b1) && utf8Cont b2 && utf8Cont b3 && utf8Valid r
      | _ => false
    else false

/-- `String::from_utf8(v).ok()`: the byte list itself when valid UTF-8
(the handler only ever compares and forwards the text, so the string is
kept as its bytes), `none` otherwise. -/
def utf8Check (l : List Nat) : Option (List Nat) :=
  if utf8Valid l then some l else none

/-! ## Addresses (`std::net`) -/

/-- An IP address as its octets: 4 bytes for `Ipv4Addr`, 16 for
`Ipv6Addr` (`from_octets` / `octets`). -/
inductive IpAddr where
  | v4 : List Nat → IpAddr
  | v6 : List Nat → IpAddr
deriving DecidableEq, Repr

/-- `IpAddr::is_ipv6`. -/
def IpAddr.isV6 : IpAddr → Bool
  | .v4 _ => false
  | .v6 _ => true

/-- `IpAddr::is_ipv4`. -/
def IpAddr.isV4 : IpAddr → Bool
  | .v4 _ => true
  | .v6 _ => false

/-- `SocketAddr`: an IP address plus a port. -/
abbrev SockAddr : Type := IpAddr × Nat

/-- A host decoded from a SOCKS5 address block: a literal IP or a
domain name (kept as its bytes).  The source renders it with
`format!("{}:{}", addr, port)`; since that rendering is injective on
(address, port), the embedding keeps the structured pair instead of
the formatted string. -/
inductive SocksHost where
  | ip : IpAddr → SocksHost
  | name : List Nat → SocksHost
deriving DecidableEq, Repr

/-! ## SOCKS5 codec (`handler.rs`: `socks_prase_host`,
`socks_prase_request`, `build_socks_response`, `build_socks_udp`) -/

/-- `socks_prase_host` (handler.rs:435-455).  Decodes one SOCKS5
address block starting at the ATYP byte, returning the host, the port
and the number of consumed bytes.  The Rust body indexes
`buffer[0]`, `buffer[1..5]`, `buffer[5..7]`, `buffer[1..17]`,
`buffer[17..19]`, `buffer[1]`, `buffer[2..2+len]` and
`buffer[2+len..2+len+2]` with panicking slice syntax, so every
out-of-range access is a panic (the adjacent `.first_chunk()?` never
fires: the panicking slice is evaluated first).  For ATYP 3 the
`String::from_utf8(..).ok()?` runs after the domain slice and before
the port slice, so an invalid-UTF-8 domain returns `None` even when
the port bytes are missing. -/
def socks_prase_host (buffer : List Nat) : MayPanic (Option ((SocksHost × Nat) × Nat)) :=
  match buffer with
  | [] => .panics
  | atyp :: rest =>
    if atyp = 1 then
      if buffer.length < 7 then .panics
      else .ret (some ((.ip (.v4 (rest.take 4)), be16 (rest.drop 4)), 7))
    else if atyp = 4 then
      if buffer.length < 19 then .panics
      else .ret (some ((.ip (.v6 (rest.take 16)), be16 (rest.drop 16)), 19))
    else if atyp = 3 then
      match rest with
      | [] => .panics
      | len :: rest2 =>
        if buffer.length < 2 + len then .panics
        else
          match utf8Check (rest2.take len) with
          | none => .ret none
          | some s =>
            if buffer.length < 2 + len + 2 then .panics
            else .ret (some ((.name s, be16 (rest2.drop len)), 2 + len + 2))
    else .ret none

/-- `socks_prase_request` (handler.rs:431-434): reads the CMD byte at
index 1 and decodes the address block starting at index 3.  `buffer[1]`
panics when the buffer has fewer than 2 bytes and `&buffer[3..]` panics
when it has fewer than 3. -/
def socks_prase_request (buffer : List Nat) :
    MayPanic (Option (Nat × ((SocksHost × Nat) × Nat))) :=
  if buffer.length < 3 then .panics
  else
    match socks_prase_host (buffer.drop 3) with
    | .panics => .panics
    | .ret o => .ret (o.map fun x => (buffer.getD 1 0, x))

/-- `build_socks_response` (handler.rs:375-393): the SOCKS5 reply
`05 REP 00 ATYP ADDR PORT` for the given bound address; the source
writes it into the scratch buffer and returns the length (10 for IPv4,
22 for IPv6), so the embedding returns exactly the written prefix. -/
def build_socks_response (cmd : Nat) (addr : SockAddr) : List Nat :=
  match addr with
  | (.v4 o, p) => 5 :: cmd :: 0 :: 1 :: (o ++ portBytes p)
  | (.v6 o, p) => 5 :: cmd :: 0 :: 4 :: (o ++ portBytes p)

/-- `build_socks_udp` (handler.rs:394-416): the SOCKS5 UDP header
`00 00 FRAG=00 ATYP ADDR PORT` followed by the payload. -/
def build_socks_udp (addr : SockAddr) (data : List Nat) : List Nat :=
  match addr with
  | (.v4 o, p) => 0 :: 0 :: 0 :: 1 :: (o ++ portBytes p ++ data)
  | (.v6 o, p) => 0 :: 0 :: 0 :: 4 :: (o ++ portBytes p ++ data)

/-! ## Relay copy loops -/

/-- `std::io::ErrorKind` values distinguished by the copy loops. -/
inductive ErrKind where
  | timedOut
  | wouldBlock
  | interrupted
  | other
deriving DecidableEq, Repr

/-- Outcome of one `read` call observed by a copy loop: end of stream
(`Ok(0)`), `n` bytes (`Ok(n)`, `n ≥ 1`), or an error of some kind. -/
inductive ReadRes where
  | eof : ReadRes
  | ok : Nat → ReadRes
  | err : ErrKind → ReadRes
deriving DecidableEq, Repr

/-- How a copy loop ended: clean return, propagated I/O error, or the
oracle ran out while the loop was still going (the connection is still
relaying). -/
inductive CopyExit where
  | clean
  | ioError : ErrKind → CopyExit
  | running
deriving DecidableEq, Repr

/-- `copy` (handler.rs:352-374), driven by the list of read outcomes.
Returns the chunk sizes passed to the progress reporter and how the
loop ended.  `Ok(0)` breaks; `Ok(n)` writes then reports `n`;
`WouldBlock` falls into the empty match arm and the loop retries;
every other error (`TimedOut` and `Interrupted` included) is
propagated by `e?`.  Writes to the destination socket are modelled as
succeeding. -/
def copyR : List ReadRes → List Nat × CopyExit
  | [] => ([], .running)
  | .eof :: _ => ([], .clean)
  | .ok n :: rest =>
    let r := copyR rest
    (n :: r.1, r.2)
  | .err .wouldBlock :: rest => copyR rest
  | .err k :: _ => ([], .ioError k)

/-- `copy_up` (handle.rs:179-207, older handler generation): reports
then writes; `Interrupted` retries; `TimedOut`/`WouldBlock` return
cleanly with no event; other errors propagate. -/
def copy_up : List ReadRes → List Nat × CopyExit
  | [] => ([], .running)
  | .eof :: _ => ([], .clean)
  | .ok n :: rest =>
    let r := copy_up rest
    (n :: r.1, r.2)
  | .err .interrupted :: rest => copy_up rest
  | .err .timedOut :: _ => ([], .clean)
  | .err .wouldBlock :: _ => ([], .clean)
  | .err .other :: _ => ([], .ioError .other)

/-- `copy_down` (handle.rs:209-237): like `copy_up` except that on
`TimedOut`/`WouldBlock` it first sends an `Error("IO timeout")` event
(the middle component records whether that event was emitted) and then
returns cleanly. -/
def copy_down : List ReadRes → List Nat × (Bool × CopyExit)
  | [] => ([], false, .running)
  | .eof :: _ => ([], false, .clean)
  | .ok n :: rest =>
    let r := copy_down rest
    (n :: r.1, r.2)
  | .err .interrupted :: rest => copy_down rest
  | .err .timedOut :: _ => ([], true, .clean)
  | .err .wouldBlock :: _ => ([], true, .clean)
  | .err .other :: _ => ([], false, .ioError .other)

/-! ## Dialer (`connect`, handler.rs:479-508) -/

/-- Outcome of trying one candidate: `Socket::new` fails, `bind` fails,
`connect` fails, or `connect` succeeds.  `handler.rs`'s `connect` uses
a plain (untimed) `connect`, so a timed-out connect surfaces as a
connect error like any other. -/
inductive DialOutcome where
  | newErr
  | bindErr
  | connErr
  | connOk
deriving DecidableEq, Repr

/-- Result of the whole dial: connected using the candidate at the
given position, aborted by a propagated I/O error (`Socket::new` or
`bind` failing, whose error leaves via `?`), or the list was exhausted
(`"All hosts are unreachable"`). -/
inductive DialRes where
  | connected : Nat → DialRes
  | ioErr : DialRes
  | unreachable : DialRes
deriving DecidableEq, Repr

/-- `connect` (handler.rs:479-508) over the per-candidate outcomes:
returns how many `Retry` events were emitted and the result.  A failed
`connect` emits one `Retry` and moves on; a failed `Socket::new` or
`bind` propagates immediately via `?` with no `Retry`. -/
def connectR : List DialOutcome → Nat × DialRes
  | [] => (0, .unreachable)
  | .newErr :: _ => (0, .ioErr)
  | .bindErr :: _ => (0, .ioErr)
  | .connOk :: _ => (0, .connected 0)
  | .connErr :: rest =>
    let r := connectR rest
    (r.1 + 1,
      match r.2 with
      | .connected i => .connected (i + 1)
      | x => x)

/-! ## Resolver ordering (`lookup_host`, handler.rs:456-478) -/

/-- The `sort_by_key` key of `lookup_host`, mapped to a number so that
the Rust tuple order `(bool, bool)` (false < true, lexicographic)
becomes `≤` on `Nat`: key
`(!((have_v4 && is_ipv4) || (have_v6 && is_ipv6)), is_ipv6 == ipv6_first)`. -/
def lookupKey (have4 have6 ipv6First : Bool) (a : SockAddr) : Nat :=
  (if !((have4 && a.1.isV4) || (have6 && a.1.isV6)) then 2 else 0) +
  (if a.1.isV6 == ipv6First then 1 else 0)

/-- Insert `x` into `acc` after every element `y` with `le y x`: the
insertion step of a stable insertion sort. -/
def stableInsert (le : α → α → Bool) (x : α) : List α → List α
  | [] => [x]
  | y :: ys => if le y x then y :: stableInsert le x ys else x :: y :: ys

/-- Stable sort by the total preorder `le`, inserting elements left to
right so that equal-keyed elements keep their input order.  A stable
sort by a total preorder is unique, so this is extensionally the same
list Rust's stable `sort_by`/`sort_by_key` produces. -/
def stableSort (le : α → α → Bool) (l : List α) : List α :=
  l.foldl (fun acc x => stableInsert le x acc) []

/-- The candidate ordering of `lookup_host` (handler.rs:460-468): with
no preference the OS order is kept; otherwise a stable sort by
`lookupKey`. -/
def lookup_host_order (addrs : List SockAddr) (ipv6First : Option Bool)
    (have4 have6 : Bool) : List SockAddr :=
  match ipv6First with
  | none => addrs
  | some pref =>
    stableSort (fun a b => lookupKey have4 have6 pref a ≤ lookupKey have4 have6 pref b) addrs

/-- The older generation's ordering (handle.rs:85-98): `sort_by` on
`is_ipv4` when `ipv6_first` (putting IPv6 first) and on `is_ipv6`
otherwise (putting IPv4 first); no pool-presence component. -/
def inner_handle_order (addrs : List SockAddr) (ipv6First : Option Bool) : List SockAddr :=
  match ipv6First with
  | none => addrs
  | some pref =>
    if pref then stableSort (fun a b => !a.1.isV4 || b.1.isV4) addrs
    else stableSort (fun a b => !a.1.isV6 || b.1.isV6) addrs

/-! ## Address pool (`config.rs`: `IpPool`, `HandlerConfig`) -/

/-- `IpPool` (config.rs:48-53): an ordered sequence, a cursor, and the
family's unspecified default. -/
structure IpPool (T : Type) where
  val : List T
  index : Nat
  default : T
deriving Repr

/-- `IpPool::new` (config.rs:58-64). -/
def IpPool.new (iter : List T) (default : T) : IpPool T :=
  ⟨iter, 0, default⟩

/-- `IpPool::next` (config.rs:65-72): reset the cursor when it has run
off the end, read the element there (or the default when the sequence
is empty), advance.  Returns the value and the updated pool. -/
def IpPool.next (p : IpPool T) : T × IpPool T :=
  let i := if p.val.length ≤ p.index then 0 else p.index
  (p.val.getD i p.default, ⟨p.val, i + 1, p.default⟩)

/-- The value returned by the `i`-th `next()` call (0-based) starting
from pool state `p`. -/
def IpPool.run (p : IpPool T) : Nat → T
  | 0 => p.next.1
  | i + 1 => p.next.2.run i

/-- The octets of `Ipv4Addr::UNSPECIFIED` (`0.0.0.0`). -/
def unspecified4 : IpAddr := .v4 [0, 0, 0, 0]

/-- The octets of `Ipv6Addr::UNSPECIFIED` (`::`). -/
def unspecified6 : IpAddr := .v6 [0, 0, 0, 0, 0, 0, 0, 0, 0, 0, 0, 0, 0, 0, 0, 0]

/-- The two pools of `HandlerConfig::new` (config.rs:22-39), with the
family sentinels used there. -/
def HandlerConfig.mk4 (v4 : List IpAddr) : IpPool IpAddr := IpPool.new v4 unspecified4

/-- The v6 pool of `HandlerConfig::new`. -/
def HandlerConfig.mk6 (v6 : List IpAddr) : IpPool IpAddr := IpPool.new v6 unspecified6

/-! ## HTTP sniffing (`http_addr`, handler.rs:417-430) -/

/-- `char::is_ascii_whitespace`: space, tab, newline, form feed,
carriage return.  `String::from_utf8_lossy` maps ASCII bytes to
themselves and never absorbs an ASCII byte into a replacement
character, so splitting the byte list on these bytes coincides with
`split_ascii_whitespace` on the lossily decoded string. -/
def isWs (b : Nat) : Bool := b = 32 || b = 9 || b = 10 || b = 12 || b = 13

/-- Accumulator-style splitter for `split_ascii_whitespace`
(empty tokens are skipped); `cur` holds the current token reversed. -/
def splitWsGo (cur : List Nat) : List Nat → List (List Nat)
  | [] => if cur.isEmpty then [] else [cur.reverse]
  | b :: rest =>
    if isWs b then
      if cur.isEmpty then splitWsGo [] rest else cur.reverse :: splitWsGo [] rest
    else splitWsGo (b :: cur) rest

/-- `split_ascii_whitespace` over the byte list. -/
def splitWs (l : List Nat) : List (List Nat) := splitWsGo [] l

/-- `u8::to_ascii_lowercase`. -/
def lowerB (b : Nat) : Nat := if 65 ≤ b ∧ b ≤ 90 then b + 32 else b

/-- `str::eq_ignore_ascii_case` on byte lists. -/
def eqIC (a b : List Nat) : Bool := a.map lowerB = b.map lowerB

/-- The bytes of `"Host:"`. -/
def hostTok : List Nat := [72, 111, 115, 116, 58]

/-- The bytes of `"CONNECT"`. -/
def connectBytes : List Nat := [67, 79, 78, 78, 69, 67, 84]

/-- `http_addr` (handler.rs:417-430): split the peeked request on ASCII
whitespace; `request_split.nth(1)` takes the request target (token 1)
and leaves the iterator at token 2; then scan the remaining tokens for
a case-insensitive `Host:` and take the token after it, falling back to
the request target.  If the result is bracketed (`[` first, `]` last)
or has no colon, `":80"` is appended.  Returns `none` when no token is
available (the caller `expect`s, i.e. panics, on that).

The source applies this to the whole 40960-byte scratch buffer (whose
tail beyond the bytes actually read is uninitialised memory); the
embedding applies it to the bytes read. -/
def http_addr (buffer : List Nat) : Option (List Nat) :=
  let toks := splitWs buffer
  let path := toks[1]?
  let fromHost := ((toks.drop 2).dropWhile (fun t => !eqIC t hostTok))[1]?
  match fromHost.or path with
  | none => none
  | some a =>
    if (a.headD 0 = 91 ∧ a.getLast? = some 93) ∨ ¬a.contains 58 then
      some (a ++ [58, 56, 48])
    else some a

/-! ## The per-connection handler as a trace machine
(`handle`, handler.rs:16-69, and the functions it dispatches to) -/

/-- `event::Protocol`. -/
inductive Protocol where
  | http
  | https
  | socks5Tcp
  | socks5Udp
deriving DecidableEq, Repr

/-- `event::Event`, with the payloads that the ordering claims consult
(upload/download sizes, the recognised protocol); textual payloads
(peer address, target, reason) are dropped. -/
inductive Ev where
  | received
  | recognized : Protocol → Ev
  | resolved
  | connected
  | upload : Nat → Ev
  | download : Nat → Ev
  | retry
  | done
  | error
deriving DecidableEq, Repr

/-- One observable action of a handler: an event sent on the bus, bytes
written to the client socket (protocol replies; the relay's payload
copying is kept separate), or bytes written to the upstream socket. -/
inductive Act where
  | ev : Ev → Act
  | cw : List Nat → Act
  | rw : List Nat → Act
deriving DecidableEq, Repr

/-- How a modelled run ended: the handler returned, it panicked, or the
oracle ran out while the connection was still being served. -/
inductive Exit where
  | ok
  | panicked
  | incomplete
deriving DecidableEq, Repr

/-- One step of the SOCKS5 UDP relay loop (`socks_udp_relay`,
handler.rs:271-310): the control-stream `peek` reported data or EOF
(loop breaks), or it reported `WouldBlock` and `recv_from` then
produced a datagram from `src`, or `recv_from` failed. -/
inductive UdpStep where
  | ready
  | dgram : Nat → List Nat → UdpStep
  | recvErr
deriving DecidableEq, Repr

/-- The I/O environment of one accepted connection, fixed up front:
every read, resolution and connect outcome the handler can observe.
Writes to sockets and event-bus sends are modelled as succeeding. -/
structure Oracle where
  /-- The first `read` on the client: `none` for an error or `Ok(0)`
  (the handler then does nothing), otherwise the bytes read. -/
  firstRead : Option (List Nat)
  /-- `lookup_host`: `none` for a resolution error (including the empty
  result), otherwise the per-candidate dial outcomes, one per resolved
  candidate in order. -/
  lookup : Option (List DialOutcome)
  /-- Read outcomes of the client-to-upstream copy. -/
  up : List ReadRes
  /-- Read outcomes of the upstream-to-client copy. -/
  down : List ReadRes
  /-- The interleaving of the two concurrent relay copies: at each
  point where both copies are still producing, `true` lets the upload
  copy take its next read, `false` the download copy; when one side is
  exhausted, or the schedule is, the remainder runs in order. -/
  relaySched : List Bool
  /-- The second client `read` in `socks_handle_request`: `none` for a
  read error, otherwise the bytes read. -/
  reqRead : Option (List Nat)
  /-- `remote.local_addr()` reported after a successful dial, used to
  build the SOCKS5 reply. -/
  boundAddr : SockAddr
  /-- Whether `UdpSocket::bind` succeeded in `socks_udp_resolved`. -/
  udpBindOk : Bool
  /-- The UDP socket's local address, used to build the UDP reply. -/
  udpBound : SockAddr
  /-- The steps of the UDP relay loop. -/
  udp : List UdpStep
deriving Repr

/-- The bytes of `"HTTP/1.1 200 Connection Established\r\n\r\n"`
(handler.rs:143). -/
def estab : List Nat :=
  [72, 84, 84, 80, 47, 49, 46, 49, 32, 50, 48, 48, 32, 67, 111, 110, 110, 101,
   99, 116, 105, 111, 110, 32, 69, 115, 116, 97, 98, 108, 105, 115, 104, 101,
   100, 13, 10, 13, 10]

/-- The bytes of `"HTTP/1.1 200 OK\r\n\r\n"`, the reply the older
generation writes on a successful CONNECT (handle.rs:157). -/
def innerHandleConnectReply : List Nat :=
  [72, 84, 84, 80, 47, 49, 46, 49, 32, 50, 48, 48, 32, 79, 75, 13, 10, 13, 10]

/-- The bytes of `"HTTP/1.1 404 Not Found\r\n\r\n"`. -/
def notFoundReply : List Nat :=
  [72, 84, 84, 80, 47, 49, 46, 49, 32, 52, 48, 52, 32, 78, 111, 116, 32, 70,
   111, 117, 110, 100, 13, 10, 13, 10]

/-- The bytes of `"HTTP/1.1 500 Internal Server Error\r\n\r\n"`. -/
def serverErrReply : List Nat :=
  [72, 84, 84, 80, 47, 49, 46, 49, 32, 53, 48, 48, 32, 73, 110, 116, 101, 114,
   110, 97, 108, 32, 83, 101, 114, 118, 101, 114, 32, 69, 114, 114, 111, 114,
   13, 10, 13, 10]

/-- Interleave two streams under a schedule: while both streams have
elements and the schedule has entries, `true` takes from the first
stream and `false` from the second; once either stream or the schedule
is exhausted, the rest follows in order.  Each stream's internal order
is preserved. -/
def interleave : List Bool → List α → List α → List α
  | [], xs, ys => xs ++ ys
  | _ :: _, [], ys => ys
  | _ :: _, xs, [] => xs
  | b :: s, x :: xs, y :: ys =>
    if b then x :: interleave s xs (y :: ys) else y :: interleave s (x :: xs) ys

/-- The bus events of `tcp_relay` (handler.rs:312-351): `Connected`,
then the two copies' reports interleaved under the oracle's schedule.
The download copy runs on the handler thread: when it fails, `copy`'s
error propagates through `tcp_relay`'s `?` (line 345) WITHOUT joining
the upload thread, `handle` emits the `Error` terminal, and the
detached upload thread — holding a cloned socket and sender — keeps
reporting, so `Upload` events may be scheduled after that `Error`
(the error is appended to the download stream and uploads interleave
freely around it).  When the download copy ends cleanly, `tcp_relay`
joins the upload thread first, so the terminal (`Done` if the upload
copy was also clean, else `Error`) comes after every report. -/
def relayEvents (sched : List Bool) (up down : List ReadRes) : List Ev :=
  Ev.connected ::
    (match (copyR down).2 with
     | .running =>
       interleave sched ((copyR up).1.map Ev.upload) ((copyR down).1.map Ev.download)
     | .ioError _ =>
       interleave sched ((copyR up).1.map Ev.upload)
         ((copyR down).1.map Ev.download ++ [Ev.error])
     | .clean =>
       match (copyR up).2 with
       | .running =>
         interleave sched ((copyR up).1.map Ev.upload) ((copyR down).1.map Ev.download)
       | .clean =>
         interleave sched ((copyR up).1.map Ev.upload) ((copyR down).1.map Ev.download) ++
           [Ev.done]
       | .ioError _ =>
         interleave sched ((copyR up).1.map Ev.upload) ((copyR down).1.map Ev.download) ++
           [Ev.error])

/-- Whether the relay phase completed: still blocked when an oracle
ran out mid-copy (on the download side, or on the upload side while
being joined after a clean download copy); otherwise the handler
returned.  A download-copy failure returns (with the `Error` emitted)
regardless of the upload copy's state, which is never joined then. -/
def relayExit (up down : List ReadRes) : Exit :=
  match (copyR down).2 with
  | .running => .incomplete
  | .ioError _ => .ok
  | .clean =>
    match (copyR up).2 with
    | .running => .incomplete
    | _ => .ok

/-- `tcp_relay` as a trace segment: it emits events only. -/
def relayR (sched : List Bool) (up down : List ReadRes) : List Act × Exit :=
  ((relayEvents sched up down).map Act.ev, relayExit up down)

/-- The dial phase shared by the HTTP, HTTPS and SOCKS5-TCP paths
(`lookup_host` + `connect` + the per-path failure replies):
`dnsFailW` is written on resolution failure, `connFailW` on dial
failure, each followed by the `Error` event the caller sends; on
success the `success` continuation runs after the emitted retries. -/
def dialPhase (lk : Option (List DialOutcome)) (dnsFailW connFailW : List Act)
    (success : List Act × Exit) : List Act × Exit :=
  match lk with
  | none => (dnsFailW ++ [Act.ev .error], .ok)
  | some outs =>
    let r := connectR outs
    let retries := List.replicate r.1 (Act.ev Ev.retry)
    match r.2 with
    | .connected _ => (retries ++ success.1, success.2)
    | _ => (retries ++ connFailW ++ [Act.ev .error], .ok)

/-- The common shape of `http_resolved` (handler.rs:70-112),
`https_resolved` (113-156) and `socks_tcp_resolved` (202-246):
`Recognized`, `Resolved`, then the dial phase. -/
def resolvedPhase (proto : Protocol) (lk : Option (List DialOutcome))
    (dnsFailW connFailW : List Act) (success : List Act × Exit) : List Act × Exit :=
  let d := dialPhase lk dnsFailW connFailW success
  (Act.ev (.recognized proto) :: Act.ev .resolved :: d.1, d.2)

/-- `socks_udp_relay` (handler.rs:271-310) over the loop steps, with
the first datagram's source fixed as the client endpoint (`Connected`
is emitted when it is learnt).  Datagrams from the client side with
length < 10 or a non-zero FRAG byte are dropped; otherwise the header
is parsed with `socks_prase_host(&buf[3..n]).unwrap()`, whose `None`
(unsupported ATYP) or internal out-of-range panic aborts the thread.
Datagram forwarding itself emits no action and sends are modelled as
succeeding. -/
def udpR (client : Option Nat) : List UdpStep → List Act × Exit
  | [] => ([], .incomplete)
  | .ready :: _ => ([Act.ev .done], .ok)
  | .recvErr :: _ => ([Act.ev .error], .ok)
  | .dgram src bytes :: rest =>
    let pre : List Act := if client.isNone then [Act.ev .connected] else []
    let cl := client.getD src
    if src = cl then
      if bytes.length < 10 ∨ bytes.getD 2 0 ≠ 0 then
        let r := udpR (some cl) rest
        (pre ++ r.1, r.2)
      else
        match socks_prase_host (bytes.drop 3) with
        | .panics => (pre, .panicked)
        | .ret none => (pre, .panicked)
        | .ret (some _) =>
          let r := udpR (some cl) rest
          (pre ++ r.1, r.2)
    else
      let r := udpR (some cl) rest
      (pre ++ r.1, r.2)

/-- `socks_tcp_resolved` (handler.rs:202-246): on failures the request
buffer with `buf[1] = 0x04` is echoed; on success the reply built from
the reported bound address is written, then the relay runs. -/
def socksTcpPhase (o : Oracle) (req : List Nat) : List Act × Exit :=
  resolvedPhase .socks5Tcp o.lookup
    [Act.cw (req.set 1 4)] [Act.cw (req.set 1 4)]
    (let r := relayR o.relaySched o.up o.down
     (Act.cw (build_socks_response 0 o.boundAddr) :: r.1, r.2))

/-- `socks_udp_resolved` (handler.rs:247-270): bind the UDP socket
(a failure propagates before `Recognized` is sent), send `Recognized`,
write the reply carrying the UDP socket's local address, then run the
UDP relay loop. -/
def socksUdpPhase (o : Oracle) : List Act × Exit :=
  if o.udpBindOk then
    let r := udpR none o.udp
    (Act.ev (.recognized .socks5Udp) :: Act.cw (build_socks_response 0 o.udpBound) :: r.1,
      r.2)
  else ([Act.ev .error], .ok)

/-- `socks_handle_request` (handler.rs:182-201): read the request,
parse it with `socks_prase_request(..).unwrap()` (a parse panic or a
`None` aborts the thread), then dispatch on CMD: 1 is CONNECT, 3 is
UDP ASSOCIATE, anything else falls into the empty match arm and the
handler returns with no further action. -/
def socksReqPhase (o : Oracle) : List Act × Exit :=
  match o.reqRead with
  | none => ([Act.ev .error], .ok)
  | some req =>
    match socks_prase_request req with
    | .panics => ([], .panicked)
    | .ret none => ([], .panicked)
    | .ret (some (cmd, _)) =>
      if cmd = 1 then socksTcpPhase o req
      else if cmd = 3 then socksUdpPhase o
      else ([], .ok)

/-- `handle` (handler.rs:16-69) as a trace machine over the oracle:
the first read gates everything (`Ok(n) if n ≥ 1`); `Received` is then
sent; fewer than 3 bytes is an error; a `0x05` first byte goes to the
SOCKS5 path (`socks_recv`, handler.rs:157-181: greeting rejected with
`05 FF` unless method `0x00` is offered among `buf[2..n]`, accepted
with `05 00`); otherwise a valid-UTF-8 16-byte head goes to the HTTP
paths (where a missing target panics on `expect("No addr found")` and
`CONNECT` is recognised by byte prefix); anything else is an unknown
protocol.  Any `Err` escaping the inner functions becomes one final
`Error` event.  `handleCore` is everything after the `Received`
event. -/
def handleCore (o : Oracle) (bytes : List Nat) : List Act × Exit :=
  if bytes.length < 3 then ([Act.ev .error], .ok)
  else if bytes.headD 0 = 5 then
    if (bytes.drop 2).contains 0 then
      let s := socksReqPhase o
      (Act.cw [5, 0] :: s.1, s.2)
    else ([Act.cw [5, 255], Act.ev .error], .ok)
  else if utf8Valid (bytes.take 16) then
    match http_addr bytes with
    | none => ([], .panicked)
    | some _ =>
      if bytes.take 7 = connectBytes then
        resolvedPhase .https o.lookup [Act.cw notFoundReply] [Act.cw serverErrReply]
          (let r := relayR o.relaySched o.up o.down
           (Act.cw estab :: r.1, r.2))
      else
        resolvedPhase .http o.lookup [Act.cw notFoundReply] [Act.cw serverErrReply]
          (let r := relayR o.relaySched o.up o.down
           (Act.rw bytes :: r.1, r.2))
  else ([Act.ev .error], .ok)

/-- `handle` proper: the first-read gate, then `Received`, then
`handleCore`. -/
def handleM (o : Oracle) : List Act × Exit :=
  match o.firstRead with
  | none => ([], .ok)
  | some bytes =>
    if bytes.isEmpty then ([], .ok)
    else
      let r := handleCore o bytes
      (Act.ev .received :: r.1, r.2)

/-- The event on the bus carried by an action, if any. -/
def Act.evOf : Act → Option Ev
  | .ev e => some e
  | _ => none

/-- The bus events of an action trace. -/
def events (l : List Act) : List Ev := l.filterMap Act.evOf

/-- The client-write payloads of an action trace. -/
def clientWrites (l : List Act) : List (List Nat) :=
  l.filterMap fun a => match a with | .cw b => some b | _ => none

/-- The stage number of an event in the lifecycle
`Received → Recognized → Resolved → (Retry…) → Connected →
(Upload/Download…) → Done/Error`. -/
def rank : Ev → Nat
  | .received => 0
  | .recognized _ => 1
  | .resolved => 2
  | .retry => 3
  | .connected => 4
  | .upload _ => 5
  | .download _ => 5
  | .done => 6
  | .error => 6

/-- Is the event terminal (`Done` or `Error`)? -/
def isTerm : Ev → Bool
  | .done => true
  | .error => true
  | _ => false

/-- Does the oracle's request read parse to a CMD that is neither 1
(CONNECT) nor 3 (UDP ASSOCIATE)?  On that path `socks_handle_request`
matches the CMD against the empty arm and returns without any terminal
event. -/
def reqUnknown (o : Oracle) : Bool :=
  match o.reqRead with
  | none => false
  | some req =>
    match socks_prase_request req with
    | .ret (some (cmd, _)) => decide (cmd ≠ 1 ∧ cmd ≠ 3)
    | _ => false

/-- Does the oracle reach `reqUnknown`'s unknown command through a
well-formed SOCKS5 greeting? -/
def unknownCmd (o : Oracle) : Bool :=
  match o.firstRead with
  | none => false
  | some g =>
    if g.isEmpty || g.length < 3 || !(g.headD 0 = 5) || !((g.drop 2).contains 0) then
      false
    else reqUnknown o

/-! ## Supporting lemmas -/

theorem be16_portBytes {p : Nat} (hp : p < 65536) : be16 (portBytes p) = p := by
  simp only [be16, portBytes]
  omega

theorem take_len_append {α : Type} (l₁ l₂ : List α) (n : Nat) (h : l₁.length = n) :
    (l₁ ++ l₂).take n = l₁ := by
  subst h; simp

theorem drop_len_append {α : Type} (l₁ l₂ : List α) (n : Nat) (h : l₁.length = n) :
    (l₁ ++ l₂).drop n = l₂ := by
  subst h; simp

/-! ## C8: SOCKS5 encode/decode round trip -/

/-- C8 (confirmed).  Encoding then decoding is the identity on
addresses: for a well-formed IPv4 or IPv6 address (4 resp. 16 octets)
and any port below 2^16, `build_socks_response` followed by
`socks_prase_host` on the address portion (the bytes after
`05 REP 00`) returns the same address and port with consumed length 7
resp. 19, the reply being 10 resp. 22 bytes long; likewise
`build_socks_udp` followed by `socks_prase_host` on the bytes after
`00 00 00`. -/
theorem c8_socks_roundtrip (cmd p : Nat) (o4 o16 data : List Nat)
    (h4 : o4.length = 4) (h16 : o16.length = 16) (hp : p < 65536) :
    socks_prase_host ((build_socks_response cmd (.v4 o4, p)).drop 3) =
      .ret (some ((.ip (.v4 o4), p), 7)) ∧
    (build_socks_response cmd (.v4 o4, p)).length = 10 ∧
    socks_prase_host ((build_socks_response cmd (.v6 o16, p)).drop 3) =
      .ret (some ((.ip (.v6 o16), p), 19)) ∧
    (build_socks_response cmd (.v6 o16, p)).length = 22 ∧
    socks_prase_host ((build_socks_udp (.v4 o4, p) data).drop 3) =
      .ret (some ((.ip (.v4 o4), p), 7)) ∧
    socks_prase_host ((build_socks_udp (.v6 o16, p) data).drop 3) =
      .ret (some ((.ip (.v6 o16), p), 19)) := by
  have hpb : (portBytes p).length = 2 := by simp [portBytes]
  have hbe : ∀ tail : List Nat, be16 (portBytes p ++ tail) = p := by
    intro tail
    simp only [portBytes, List.cons_append, List.nil_append, be16]
    omega
  have hv4take : (o4 ++ portBytes p).take 4 = o4 := take_len_append _ _ _ h4
  have hv4drop : (o4 ++ portBytes p).drop 4 = portBytes p := drop_len_append _ _ _ h4
  have hv6take : (o16 ++ portBytes p).take 16 = o16 := take_len_append _ _ _ h16
  have hv6drop : (o16 ++ portBytes p).drop 16 = portBytes p := drop_len_append _ _ _ h16
  have hu4take : (o4 ++ (portBytes p ++ data)).take 4 = o4 := take_len_append _ _ _ h4
  have hu4drop : (o4 ++ (portBytes p ++ data)).drop 4 = portBytes p ++ data :=
    drop_len_append _ _ _ h4
  have hu6take : (o16 ++ (portBytes p ++ data)).take 16 = o16 := take_len_append _ _ _ h16
  have hu6drop : (o16 ++ (portBytes p ++ data)).drop 16 = portBytes p ++ data :=
    drop_len_append _ _ _ h16
  have hn1 : ¬((1 :: (o4 ++ portBytes p)).length < 7) := by simp [h4, hpb]
  have hn2 : ¬((4 :: (o16 ++ portBytes p)).length < 19) := by simp [h16, hpb]
  have hn3 : ¬((1 :: (o4 ++ (portBytes p ++ data))).length < 7) := by
    simp only [List.length_cons, List.length_append, h4, hpb]
    omega
  have hn4 : ¬((4 :: (o16 ++ (portBytes p ++ data))).length < 19) := by
    simp only [List.length_cons, List.length_append, h16, hpb]
    omega
  refine ⟨?_, ?_, ?_, ?_, ?_, ?_⟩
  · simp [build_socks_response, socks_prase_host, hn1, hv4take, hv4drop, be16_portBytes hp,
      h4, hpb]
  · simp [build_socks_response, h4, hpb]
  · simp [build_socks_response, socks_prase_host, hn2, hv6take, hv6drop, be16_portBytes hp,
      h16, hpb]
  · simp [build_socks_response, h16, hpb]
  · simp only [build_socks_udp, socks_prase_host, List.append_assoc, List.drop_succ_cons,
      List.drop_zero, if_true, hn3, if_false, hu4take, hu4drop, hbe]
  · simp only [build_socks_udp, socks_prase_host, List.append_assoc, List.drop_succ_cons,
      List.drop_zero, if_true, hn4, if_false, hu6take, hu6drop, hbe]
    rw [if_neg (show ¬(4 = 1) by decide)]

/-- Witness for C8 at a concrete address, port and payload. -/
theorem c8_socks_roundtrip_witness :
    socks_prase_host ((build_socks_response 0 (.v4 [127, 0, 0, 1], 443)).drop 3) =
      .ret (some ((.ip (.v4 [127, 0, 0, 1]), 443), 7)) ∧
    (build_socks_response 0 (.v4 [127, 0, 0, 1], 443)).length = 10 := by
  have h := c8_socks_roundtrip 0 443 [127, 0, 0, 1]
    [0, 0, 0, 0, 0, 0, 0, 0, 0, 0, 0, 0, 0, 0, 0, 1] [1, 2, 3]
    (by decide) (by decide) (by decide)
  exact ⟨h.1, h.2.1⟩

/-! ## C9: round-robin address pool -/

theorem IpPool.run_empty {T : Type} (d : T) (j i : Nat) :
    (IpPool.mk [] j d).run i = d := by
  induction i generalizing j with
  | zero => simp [IpPool.run, IpPool.next]
  | succ i ih => simpa [IpPool.run, IpPool.next] using ih 1

theorem IpPool.run_mod {T : Type} (l : List T) (d : T) (hl : l ≠ []) :
    ∀ (i j : Nat), j ≤ l.length →
      (IpPool.mk l j d).run i = l.getD ((j + i) % l.length) d := by
  have hlen : 0 < l.length := List.length_pos.mpr hl
  intro i
  induction i with
  | zero =>
    intro j hj
    simp only [IpPool.run, IpPool.next]
    by_cases h : l.length ≤ j
    · have hje : j = l.length := le_antisymm hj h
      simp [h, hje, Nat.mod_self]
    · have hmod : j % l.length = j := Nat.mod_eq_of_lt (by omega)
      simp [h, hmod]
  | succ i ih =>
    intro j hj
    simp only [IpPool.run, IpPool.next]
    by_cases h : l.length ≤ j
    · have hje : j = l.length := le_antisymm hj h
      rw [if_pos h, ih 1 (by omega), hje, Nat.add_mod_left l.length (i + 1),
        Nat.add_comm 1 i]
    · rw [if_neg h, ih (j + 1) (by omega)]
      have harg : j + 1 + i = j + (i + 1) := by omega
      rw [harg]

/-- C9 (confirmed).  From a freshly built pool, the `i`-th `next()`
call returns element `i mod length` of the sequence when the sequence
is non-empty — a fair cyclic round-robin — and the family default on
every call when it is empty; `HandlerConfig::new` instantiates the
defaults as the unspecified sentinels `0.0.0.0` and `::`. -/
theorem c9_pool_round_robin :
    (∀ (T : Type) (l : List T) (d : T) (i : Nat), l ≠ [] →
      (IpPool.new l d).run i = l.getD (i % l.length) d) ∧
    (∀ (T : Type) (d : T) (i : Nat), (IpPool.new ([] : List T) d).run i = d) ∧
    (∀ i : Nat, (HandlerConfig.mk4 []).run i = unspecified4) ∧
    (∀ i : Nat, (HandlerConfig.mk6 []).run i = unspecified6) := by
  refine ⟨fun T l d i hl => ?_, fun T d i => IpPool.run_empty d 0 i,
    fun i => IpPool.run_empty unspecified4 0 i, fun i => IpPool.run_empty unspecified6 0 i⟩
  simpa using IpPool.run_mod l d hl i 0 (by omega)

/-- Witness for C9: a two-element pool cycles `a, b, a, b, …` and an
empty v4 pool yields `0.0.0.0`. -/
theorem c9_pool_round_robin_witness :
    (IpPool.new [10, 20] 0).run 5 = 20 ∧ (HandlerConfig.mk4 []).run 3 = unspecified4 := by
  refine ⟨?_, c9_pool_round_robin.2.2.1 3⟩
  have h := c9_pool_round_robin.1 Nat [10, 20] 0 5 (by decide)
  simpa using h

/-! ## C2: dialer retry behaviour -/

/-- Advance the candidate index after a failed first candidate. -/
def DialRes.advance : DialRes → DialRes
  | .connected i => .connected (i + 1)
  | x => x

/-- C2 counterexample.  The claim says a bind failure causes exactly
one `Retry` and moves to the next candidate, so with candidates
`[bind-fails, connect-succeeds]` the dial would emit one `Retry` and
return the second candidate's socket; `connect` instead propagates the
bind error via `?`, emitting no `Retry` and never trying the second
candidate. -/
theorem c2_counterexample :
    connectR [.bindErr, .connOk] = (0, .ioErr) ∧
    connectR [.bindErr, .connOk] ≠ (1, .connected 1) := by
  exact ⟨rfl, by decide⟩

/-- C2 (corrected).  In `connect` (handler.rs:479-508): a failed
`connect` on a candidate emits exactly one `Retry` and advances to the
next; the first candidate whose connect succeeds is returned; a failed
`Socket::new` or a failed `bind` aborts the whole dial immediately
with that I/O error and no `Retry`; only a list of connect failures is
exhausted into the `"All hosts are unreachable"` dial error, and with
the first `k` candidates failing to connect and the next one
succeeding, exactly `k` `Retry` events are emitted before success. -/
theorem c2_dialer_amended :
    (∀ rest, connectR (.connErr :: rest) =
      ((connectR rest).1 + 1, (connectR rest).2.advance)) ∧
    (∀ rest, connectR (.connOk :: rest) = (0, .connected 0)) ∧
    (∀ rest, connectR (.bindErr :: rest) = (0, .ioErr)) ∧
    (∀ rest, connectR (.newErr :: rest) = (0, .ioErr)) ∧
    connectR [] = (0, .unreachable) ∧
    (∀ k, connectR (List.replicate k .connErr) = (k, .unreachable)) ∧
    (∀ k, connectR (List.replicate k .connErr ++ [.connOk]) = (k, .connected k)) := by
  refine ⟨fun rest => ?_, fun rest => rfl, fun rest => rfl, fun rest => rfl, rfl, ?_, ?_⟩
  · simp only [connectR, DialRes.advance]
  · intro k
    induction k with
    | zero => rfl
    | succ k ih => simp [List.replicate_succ, connectR, ih]
  · intro k
    induction k with
    | zero => rfl
    | succ k ih => simp [List.replicate_succ, connectR, ih]

/-! ## C3: resolver candidate ordering -/

/-- A concrete IPv4 candidate (`127.0.0.1:80`). -/
def candV4 : SockAddr := (.v4 [127, 0, 0, 1], 80)

/-- A concrete IPv6 candidate (`::1:80`). -/
def candV6 : SockAddr := (.v6 [0, 0, 0, 0, 0, 0, 0, 0, 0, 0, 0, 0, 0, 0, 0, 1], 80)

/-- C3 (code bug).  With both families present in the pool and
`ipv6_first = Some(true)`, `lookup_host`'s key
`(…, addr.is_ipv6() == ipv6_first)` sorts `false` first, so the
candidates whose family MATCHES the preference come last: the sorted
list is `[v4, v6]` where the claim (and the older generation's
`inner_handle`, which orders correctly) expects `[v6, v4]`.
`Some(false)` is inverted likewise; the pool-presence first key and
the `None` pass-through behave as claimed. -/
theorem c3_ordering_bug_eval :
    lookup_host_order [candV4, candV6] (some true) true true = [candV4, candV6] ∧
    lookup_host_order [candV4, candV6] (some false) true true = [candV6, candV4] ∧
    lookup_host_order [candV4, candV6] none true true = [candV4, candV6] ∧
    inner_handle_order [candV4, candV6] (some true) = [candV6, candV4] ∧
    lookupKey true true true candV4 = 0 ∧ lookupKey true true true candV6 = 1 := by
  refine ⟨by decide, by decide, rfl, by decide, rfl, rfl⟩

/-! ## C4: relay read-error classification -/

/-- C4 counterexample.  The claim says a `TimedOut` read error
terminates the copy cleanly with no `Error` event; in `copy`
(handler.rs:352-374) `TimedOut` is not matched by the `WouldBlock` arm
and falls into `e?`, which propagates it as an error (and `handle`
then emits `Error`). -/
theorem c4_counterexample :
    copyR [.err .timedOut] = ([], .ioError .timedOut) ∧
    copyR [.err .timedOut] ≠ ([], .clean) := by
  exact ⟨rfl, by decide⟩

/-- C4 (corrected).  Actual classification: in `copy` (handler.rs)
a `WouldBlock` read error retries the read, and every other read error
— `TimedOut` and `Interrupted` included — terminates the relay as an
error; EOF terminates cleanly.  In the older generation,
`copy_up` (handle.rs) retries on `Interrupted`, terminates cleanly
with no event on `TimedOut`/`WouldBlock`, and propagates other errors;
`copy_down` is the same except that it emits an `Error("IO timeout")`
event (middle component `true`) before its clean return on
`TimedOut`/`WouldBlock`. -/
theorem c4_copy_amended :
    (∀ rest, copyR (.err .wouldBlock :: rest) = copyR rest) ∧
    (∀ rest, copyR (.err .timedOut :: rest) = ([], .ioError .timedOut)) ∧
    (∀ rest, copyR (.err .interrupted :: rest) = ([], .ioError .interrupted)) ∧
    (∀ rest, copyR (.err .other :: rest) = ([], .ioError .other)) ∧
    (∀ rest, copyR (.eof :: rest) = ([], .clean)) ∧
    (∀ rest n, copyR (.ok n :: rest) = (n :: (copyR rest).1, (copyR rest).2)) ∧
    (∀ rest, copy_up (.err .interrupted :: rest) = copy_up rest) ∧
    (∀ rest, copy_up (.err .timedOut :: rest) = ([], .clean)) ∧
    (∀ rest, copy_up (.err .wouldBlock :: rest) = ([], .clean)) ∧
    (∀ rest, copy_up (.err .other :: rest) = ([], .ioError .other)) ∧
    (∀ rest, copy_down (.err .interrupted :: rest) = copy_down rest) ∧
    (∀ rest, copy_down (.err .timedOut :: rest) = ([], true, .clean)) ∧
    (∀ rest, copy_down (.err .wouldBlock :: rest) = ([], true, .clean)) ∧
    (∀ rest, copy_down (.err .other :: rest) = ([], false, .ioError .other)) := by
  refine ⟨fun _ => rfl, fun _ => rfl, fun _ => rfl, fun _ => rfl, fun _ => rfl,
    fun _ _ => rfl, fun _ => rfl, fun _ => rfl, fun _ => rfl, fun _ => rfl,
    fun _ => rfl, fun _ => rfl, fun _ => rfl, fun _ => rfl⟩

/-! ## C6: missing HTTP target -/

/-- An oracle whose connection sends the 3-byte request `GET` (no
request target, no `Host:` header); the remaining fields are never
reached. -/
def oracleGET : Oracle :=
  ⟨some [71, 69, 84], none, [], [], [], none, (unspecified4, 0), true, (unspecified4, 0), []⟩

/-- C6 (code bug).  On a sniffed HTTP request with no extractable
target, `http_addr` returns `None` and `handle` (handler.rs:47)
`expect`s it — the handler thread panics after `Received`, writes
nothing to the client and emits no further event, instead of
responding `400 Bad Request`.  (The older generation, handle.rs:50-58,
does write `HTTP/1.1 400 Bad Request` and return, which is the
behaviour the claim describes.) -/
theorem c6_missing_target_bug_eval :
    http_addr [71, 69, 84] = none ∧
    handleM oracleGET = ([Act.ev .received], .panicked) ∧
    clientWrites (handleM oracleGET).1 = [] := by
  refine ⟨by decide, by decide, by decide⟩

/-! ## C10: SOCKS5 parser totality -/

/-- An oracle driving the SOCKS5 path to a request with the
unsupported ATYP 9, on which `socks_handle_request` unwraps `None`. -/
def oracleBadAtyp : Oracle :=
  ⟨some [5, 1, 0], none, [], [], [], some [5, 1, 0, 9], (unspecified4, 0), true,
    (unspecified4, 0), []⟩

/-- C10 (code bug).  The SOCKS5 parsers are not total: every
ATYP-implied length that exceeds the buffer makes the panicking slice
index in `socks_prase_host` abort (`buffer[1..5]` on `[0x01]`,
`buffer[17..19]` on a short IPv6 block, `buffer[2..2+len]` when the
domain length byte overruns), `socks_prase_request` panics on buffers
shorter than 3 bytes, and an unsupported ATYP returns `None` which
`socks_handle_request(..).unwrap()` turns into a panic.  Only the
unsupported-ATYP case itself is a clean `None`. -/
theorem c10_parser_totality_bug_eval :
    socks_prase_host [1] = .panics ∧
    socks_prase_host [] = .panics ∧
    socks_prase_host [4, 1, 2] = .panics ∧
    socks_prase_host [3, 200, 104, 105] = .panics ∧
    socks_prase_request [5, 1] = .panics ∧
    socks_prase_host [9, 0, 0] = .ret none ∧
    handleM oracleBadAtyp = ([Act.ev .received, Act.cw [5, 0]], .panicked) := by
  refine ⟨by decide, by decide, by decide, by decide, by decide, by decide, by decide⟩

/-! ## Action-trace accessors -/

@[simp]
theorem events_nil : events [] = [] := rfl

@[simp]
theorem events_cons_ev (e : Ev) (l : List Act) : events (Act.ev e :: l) = e :: events l := rfl

@[simp]
theorem events_cons_cw (b : List Nat) (l : List Act) : events (Act.cw b :: l) = events l := rfl

@[simp]
theorem events_cons_rw (b : List Nat) (l : List Act) : events (Act.rw b :: l) = events l := rfl

@[simp]
theorem events_append (l₁ l₂ : List Act) : events (l₁ ++ l₂) = events l₁ ++ events l₂ := by
  simp [events]

@[simp]
theorem clientWrites_nil : clientWrites [] = [] := rfl

@[simp]
theorem clientWrites_cons_ev (e : Ev) (l : List Act) :
    clientWrites (Act.ev e :: l) = clientWrites l := rfl

@[simp]
theorem clientWrites_cons_cw (b : List Nat) (l : List Act) :
    clientWrites (Act.cw b :: l) = b :: clientWrites l := rfl

@[simp]
theorem clientWrites_cons_rw (b : List Nat) (l : List Act) :
    clientWrites (Act.rw b :: l) = clientWrites l := rfl

@[simp]
theorem clientWrites_append (l₁ l₂ : List Act) :
    clientWrites (l₁ ++ l₂) = clientWrites l₁ ++ clientWrites l₂ := by
  simp [clientWrites]

@[simp]
theorem clientWrites_replicate_retry (k : Nat) :
    clientWrites (List.replicate k (Act.ev Ev.retry)) = [] := by
  induction k with
  | zero => rfl
  | succ k ih => simpa [List.replicate_succ] using ih

@[simp]
theorem clientWrites_map_upload (l : List Nat) :
    clientWrites (l.map fun n => Act.ev (.upload n)) = [] := by
  induction l with
  | nil => rfl
  | cons a t ih => simpa using ih

@[simp]
theorem clientWrites_map_download (l : List Nat) :
    clientWrites (l.map fun n => Act.ev (.download n)) = [] := by
  induction l with
  | nil => rfl
  | cons a t ih => simpa using ih

@[simp]
theorem events_map_ev (l : List Ev) : events (l.map Act.ev) = l := by
  induction l with
  | nil => rfl
  | cons a t ih => simpa using ih

@[simp]
theorem clientWrites_map_ev (l : List Ev) : clientWrites (l.map Act.ev) = [] := by
  induction l with
  | nil => rfl
  | cons a t ih => simpa using ih

/-- The relay writes no protocol bytes to the client: its actions are
events only. -/
theorem clientWrites_relayR (sched : List Bool) (u d : List ReadRes) :
    clientWrites (relayR sched u d).1 = [] := by
  simp [relayR]

/-- The relay's bus events are exactly `relayEvents`. -/
theorem events_relayR (sched : List Bool) (u d : List ReadRes) :
    events (relayR sched u d).1 = relayEvents sched u d := by
  simp [relayR]

/-! ## C7: SOCKS5 greeting -/

/-- C7 (confirmed).  On a SOCKS5 greeting (first byte `0x05`, at least
3 bytes): when method `0x00` is absent from the offered methods
(`buf[2..n]`) the handler writes exactly `05 FF`, emits the `Error`
terminal and returns (the connection closes); when `0x00` is offered
it writes exactly `05 00` and continues precisely with the
request-reading phase (`socks_handle_request`). -/
theorem c7_socks_greeting (o : Oracle) (g : List Nat) (h1 : o.firstRead = some g)
    (h2 : 3 ≤ g.length) (h3 : g.headD 0 = 5) :
    ((g.drop 2).contains 0 = false →
      handleM o = ([Act.ev .received, Act.cw [5, 255], Act.ev .error], .ok)) ∧
    ((g.drop 2).contains 0 = true →
      handleM o = (Act.ev .received :: Act.cw [5, 0] :: (socksReqPhase o).1,
        (socksReqPhase o).2)) := by
  have hemp : g.isEmpty = false := by
    cases g with
    | nil => simp at h2
    | cons a t => rfl
  have hn3 : ¬g.length < 3 := by omega
  have h3' : g.head?.getD 0 = 5 := by simpa using h3
  constructor <;> intro hc <;>
    [skip; skip] <;> first
  | (have hc' : ¬0 ∈ g.drop 2 := by simpa using hc
     simp [handleM, h1, hemp, handleCore, hn3, h3', hc'])
  | (have hc' : 0 ∈ g.drop 2 := by simpa using hc
     simp [handleM, h1, hemp, handleCore, hn3, h3', hc'])

/-- An oracle offering only SOCKS5 method `0x02`. -/
def oracleGreetNoAuth : Oracle :=
  ⟨some [5, 1, 2], none, [], [], [], none, (unspecified4, 0), true, (unspecified4, 0), []⟩

/-- An oracle offering SOCKS5 method `0x00`, whose request read then
fails. -/
def oracleGreetOk : Oracle :=
  ⟨some [5, 1, 0], none, [], [], [], none, (unspecified4, 0), true, (unspecified4, 0), []⟩

/-- Witness for C7 on both branches. -/
theorem c7_socks_greeting_witness :
    handleM oracleGreetNoAuth = ([Act.ev .received, Act.cw [5, 255], Act.ev .error], .ok) ∧
    handleM oracleGreetOk = (Act.ev .received :: Act.cw [5, 0] ::
      (socksReqPhase oracleGreetOk).1, (socksReqPhase oracleGreetOk).2) := by
  exact ⟨(c7_socks_greeting oracleGreetNoAuth [5, 1, 2] rfl (by decide) rfl).1 (by decide),
    (c7_socks_greeting oracleGreetOk [5, 1, 0] rfl (by decide) rfl).2 (by decide)⟩

/-! ## C5: CONNECT success reply -/

/-- C5 counterexample.  On the same successful-CONNECT path the older
generation (handle.rs:157, cited by the claim) writes
`HTTP/1.1 200 OK\r\n\r\n`, which is not the byte string
`HTTP/1.1 200 Connection Established\r\n\r\n` the claim requires. -/
theorem c5_counterexample : innerHandleConnectReply ≠ estab := by decide

/-- C5 (corrected).  In `https_resolved` (handler.rs:139-156), for
every CONNECT request whose dial succeeds, the handler writes exactly
`HTTP/1.1 200 Connection Established\r\n\r\n` to the client — it is
the only client write of the connection — after the upstream connect
succeeded (after all dial retries) and before any relay action; the
handle.rs generation instead writes `HTTP/1.1 200 OK\r\n\r\n` at the
same point. -/
theorem c5_connect_established (o : Oracle) (bytes : List Nat) (outs : List DialOutcome)
    (i : Nat) (h1 : o.firstRead = some bytes) (h2 : 3 ≤ bytes.length)
    (h3 : ¬bytes.headD 0 = 5) (h4 : utf8Valid (bytes.take 16) = true)
    (h5 : (http_addr bytes).isSome = true) (h6 : bytes.take 7 = connectBytes)
    (h7 : o.lookup = some outs) (h8 : (connectR outs).2 = .connected i) :
    handleM o = (Act.ev .received :: Act.ev (.recognized .https) :: Act.ev .resolved ::
      (List.replicate (connectR outs).1 (Act.ev Ev.retry) ++
        Act.cw estab :: (relayR o.relaySched o.up o.down).1),
      (relayR o.relaySched o.up o.down).2) ∧
    clientWrites (handleM o).1 = [estab] := by
  have hemp : bytes.isEmpty = false := by
    cases bytes with
    | nil => simp at h2
    | cons a t => rfl
  have hn3 : ¬bytes.length < 3 := by omega
  have h3' : ¬bytes.head?.getD 0 = 5 := by simpa using h3
  obtain ⟨addr, haddr⟩ := Option.isSome_iff_exists.mp h5
  have heq : handleM o = (Act.ev .received :: Act.ev (.recognized .https) ::
      Act.ev .resolved :: (List.replicate (connectR outs).1 (Act.ev Ev.retry) ++
        Act.cw estab :: (relayR o.relaySched o.up o.down).1),
      (relayR o.relaySched o.up o.down).2) := by
    simp [handleM, h1, hemp, handleCore, hn3, h3', h4, haddr, h6, resolvedPhase,
      dialPhase, h7, h8]
  refine ⟨heq, ?_⟩
  rw [heq]
  simp [clientWrites_relayR]

/-- The CONNECT request `CONNECT a:1 x` with one immediately
successful candidate and both relay directions at EOF. -/
def oracleHttps : Oracle :=
  ⟨some [67, 79, 78, 78, 69, 67, 84, 32, 97, 58, 49, 32, 120], some [.connOk],
    [.eof], [.eof], [], none, (unspecified4, 0), true, (unspecified4, 0), []⟩

/-- Witness for C5: on the concrete successful CONNECT the client
receives exactly the `Connection Established` bytes. -/
theorem c5_connect_established_witness :
    clientWrites (handleM oracleHttps).1 = [estab] :=
  (c5_connect_established oracleHttps
    [67, 79, 78, 78, 69, 67, 84, 32, 97, 58, 49, 32, 120] [.connOk] 0
    rfl (by decide) (by decide) (by decide) (by decide) (by decide) rfl rfl).2

/-! ## C1: event ordering — segment invariants -/

/-- The per-connection event order the program actually maintains:
stage-monotone ranks, except that an `Upload` event may follow the
`Error` terminal (the upload thread is never joined when the download
copy fails, so it keeps reporting after the terminal). -/
def evLe (a b : Ev) : Prop :=
  rank a ≤ rank b ∨ (a = Ev.error ∧ ∃ n, b = Ev.upload n)

/-- The ordering/terminal invariant of a trace segment: events are
pairwise `evLe`-ordered, all of rank at least `lo`, with at most one
terminal event, and exactly one when the segment's run returned
cleanly. -/
def SegInv (r : List Act × Exit) (lo : Nat) : Prop :=
  List.Pairwise evLe (events r.1) ∧
  (∀ e ∈ events r.1, lo ≤ rank e) ∧
  (events r.1).countP isTerm ≤ 1 ∧
  (r.2 = .ok → (events r.1).countP isTerm = 1)

theorem pairwise_rank_of_const (l : List Ev) (c : Nat) (h : ∀ e ∈ l, rank e = c) :
    List.Pairwise (fun a b => rank a ≤ rank b) l := by
  induction l with
  | nil => exact List.Pairwise.nil
  | cons a t ih =>
    refine List.Pairwise.cons (fun b hb => ?_) (ih fun e he => h e (List.mem_cons_of_mem _ he))
    rw [h a (List.mem_cons_self a t), h b (List.mem_cons_of_mem _ hb)]

theorem pairwise_rank_glue (m : Nat) {l₁ l₂ : List Ev}
    (h₁ : List.Pairwise (fun a b => rank a ≤ rank b) l₁)
    (h₂ : List.Pairwise (fun a b => rank a ≤ rank b) l₂)
    (ha : ∀ a ∈ l₁, rank a ≤ m) (hb : ∀ b ∈ l₂, m ≤ rank b) :
    List.Pairwise (fun a b => rank a ≤ rank b) (l₁ ++ l₂) :=
  List.pairwise_append.mpr ⟨h₁, h₂, fun a haa b hbb => le_trans (ha a haa) (hb b hbb)⟩

theorem mem_map_upload {e : Ev} {l : List Nat} (h : e ∈ l.map Ev.upload) : rank e = 5 := by
  obtain ⟨n, _, rfl⟩ := List.mem_map.mp h
  rfl

theorem mem_map_download {e : Ev} {l : List Nat} (h : e ∈ l.map Ev.download) : rank e = 5 := by
  obtain ⟨n, _, rfl⟩ := List.mem_map.mp h
  rfl

theorem countP_isTerm_map_upload (l : List Nat) : (l.map Ev.upload).countP isTerm = 0 := by
  rw [List.countP_eq_zero]
  intro e he
  obtain ⟨n, _, rfl⟩ := List.mem_map.mp he
  simp [isTerm]

theorem countP_isTerm_map_download (l : List Nat) : (l.map Ev.download).countP isTerm = 0 := by
  rw [List.countP_eq_zero]
  intro e he
  obtain ⟨n, _, rfl⟩ := List.mem_map.mp he
  simp [isTerm]

@[simp]
theorem events_replicate_retry (k : Nat) :
    events (List.replicate k (Act.ev Ev.retry)) = List.replicate k Ev.retry := by
  induction k with
  | zero => rfl
  | succ k ih => simpa [List.replicate_succ] using ih

@[simp]
theorem events_map_upload_act (l : List Nat) :
    events (l.map fun n => Act.ev (.upload n)) = l.map Ev.upload := by
  induction l with
  | nil => rfl
  | cons a t ih => simpa using ih

@[simp]
theorem events_map_download_act (l : List Nat) :
    events (l.map fun n => Act.ev (.download n)) = l.map Ev.download := by
  induction l with
  | nil => rfl
  | cons a t ih => simpa using ih

theorem countP_isTerm_replicate_retry (k : Nat) :
    (List.replicate k Ev.retry).countP isTerm = 0 := by
  rw [List.countP_eq_zero]
  intro e he
  rw [List.eq_of_mem_replicate he]
  decide

theorem countP_comp_up (l : List Nat) : List.countP (isTerm ∘ Ev.upload) l = 0 := by
  rw [List.countP_eq_zero]
  intro a _
  simp [isTerm, Function.comp]

theorem countP_comp_down (l : List Nat) : List.countP (isTerm ∘ Ev.download) l = 0 := by
  rw [List.countP_eq_zero]
  intro a _
  simp [isTerm, Function.comp]

theorem pairwise_evLe_of_rank {l : List Ev}
    (h : List.Pairwise (fun a b => rank a ≤ rank b) l) : List.Pairwise evLe l :=
  h.imp fun hh => Or.inl hh

theorem pairwise_evLe_glue (m : Nat) {l₁ l₂ : List Ev}
    (h₁ : List.Pairwise evLe l₁) (h₂ : List.Pairwise evLe l₂)
    (ha : ∀ a ∈ l₁, rank a ≤ m) (hb : ∀ b ∈ l₂, m ≤ rank b) :
    List.Pairwise evLe (l₁ ++ l₂) :=
  List.pairwise_append.mpr
    ⟨h₁, h₂, fun a haa b hbb => Or.inl (le_trans (ha a haa) (hb b hbb))⟩

theorem mem_interleave {a : α} : ∀ (s : List Bool) (xs ys : List α),
    a ∈ interleave s xs ys ↔ a ∈ xs ∨ a ∈ ys := by
  intro s
  induction s with
  | nil =>
    intro xs ys
    simp [interleave]
  | cons b s ih =>
    intro xs ys
    cases xs with
    | nil => simp [interleave]
    | cons x xs =>
      cases ys with
      | nil => simp [interleave]
      | cons y ys =>
        cases b
        · simp [interleave, ih]
          tauto
        · simp [interleave, ih]
          tauto

theorem countP_interleave (p : α → Bool) : ∀ (s : List Bool) (xs ys : List α),
    (interleave s xs ys).countP p = xs.countP p + ys.countP p := by
  intro s
  induction s with
  | nil =>
    intro xs ys
    simp [interleave, List.countP_append]
  | cons b s ih =>
    intro xs ys
    cases xs with
    | nil => simp [interleave]
    | cons x xs =>
      cases ys with
      | nil => simp [interleave]
      | cons y ys =>
        cases b
        · simp [interleave, List.countP_cons, ih]
          omega
        · simp [interleave, List.countP_cons, ih]
          omega

theorem pairwise_interleave {R : α → α → Prop} : ∀ (s : List Bool) (xs ys : List α),
    List.Pairwise R xs → List.Pairwise R ys →
    (∀ x ∈ xs, ∀ y ∈ ys, R x y) → (∀ y ∈ ys, ∀ x ∈ xs, R y x) →
    List.Pairwise R (interleave s xs ys) := by
  intro s
  induction s with
  | nil =>
    intro xs ys hx hy hxy _
    have heq : interleave ([] : List Bool) xs ys = xs ++ ys := rfl
    rw [heq]
    exact List.pairwise_append.mpr ⟨hx, hy, hxy⟩
  | cons b s ih =>
    intro xs ys hx hy hxy hyx
    cases xs with
    | nil =>
      have heq : interleave (b :: s) ([] : List α) ys = ys := by cases ys <;> rfl
      rw [heq]
      exact hy
    | cons x xs =>
      cases ys with
      | nil =>
        have heq : interleave (b :: s) (x :: xs) ([] : List α) = x :: xs := rfl
        rw [heq]
        exact hx
      | cons y ys =>
        obtain ⟨hx1, hx2⟩ := List.pairwise_cons.mp hx
        obtain ⟨hy1, hy2⟩ := List.pairwise_cons.mp hy
        cases b
        · have heq : interleave (false :: s) (x :: xs) (y :: ys) =
              y :: interleave s (x :: xs) ys := by
            simp [interleave]
          rw [heq]
          refine List.Pairwise.cons (fun z hz => ?_) ?_
          · rcases (mem_interleave s (x :: xs) ys).mp hz with hz | hz
            · exact hyx y (List.mem_cons_self _ _) z hz
            · exact hy1 z hz
          · exact ih (x :: xs) ys hx hy2
              (fun x' hx' y' hy' => hxy x' hx' y' (List.mem_cons_of_mem _ hy'))
              (fun y' hy' x' hx' => hyx y' (List.mem_cons_of_mem _ hy') x' hx')
        · have heq : interleave (true :: s) (x :: xs) (y :: ys) =
              x :: interleave s xs (y :: ys) := by
            simp [interleave]
          rw [heq]
          refine List.Pairwise.cons (fun z hz => ?_) ?_
          · rcases (mem_interleave s xs (y :: ys)).mp hz with hz | hz
            · exact hx1 z hz
            · exact hxy x (List.mem_cons_self _ _) z hz
          · exact ih xs (y :: ys) hx2 hy
              (fun x' hx' y' hy' => hxy x' (List.mem_cons_of_mem _ hx') y' hy')
              (fun y' hy' x' hx' => hyx y' hy' x' (List.mem_cons_of_mem _ hx'))

/-- The three observable shapes of the relay segment: still running
(no terminal), a download-copy failure (the `Error` terminal merged
into the download stream, uploads free to follow it), or a clean
download copy followed by the join and a final `Done`/`Error`. -/
theorem relayEvents_cases (sched : List Bool) (u d : List ReadRes) :
    (relayEvents sched u d =
        Ev.connected :: interleave sched ((copyR u).1.map Ev.upload)
          ((copyR d).1.map Ev.download) ∧ relayExit u d = .incomplete) ∨
    (relayEvents sched u d =
        Ev.connected :: interleave sched ((copyR u).1.map Ev.upload)
          ((copyR d).1.map Ev.download ++ [Ev.error]) ∧ relayExit u d = .ok) ∨
    (∃ t, (t = Ev.done ∨ t = Ev.error) ∧ relayEvents sched u d =
        Ev.connected :: (interleave sched ((copyR u).1.map Ev.upload)
          ((copyR d).1.map Ev.download) ++ [t]) ∧ relayExit u d = .ok) := by
  rcases hd : (copyR d).2 with _ | k | _
  · rcases hu : (copyR u).2 with _ | k' | _
    · exact Or.inr (Or.inr ⟨Ev.done, Or.inl rfl, by simp [relayEvents, hd, hu],
        by simp [relayExit, hd, hu]⟩)
    · exact Or.inr (Or.inr ⟨Ev.error, Or.inr rfl, by simp [relayEvents, hd, hu],
        by simp [relayExit, hd, hu]⟩)
    · exact Or.inl ⟨by simp [relayEvents, hd, hu], by simp [relayExit, hd, hu]⟩
  · exact Or.inr (Or.inl ⟨by simp [relayEvents, hd], by simp [relayExit, hd]⟩)
  · exact Or.inl ⟨by simp [relayEvents, hd], by simp [relayExit, hd]⟩

theorem relayEventsInv (sched : List Bool) (u d : List ReadRes) :
    List.Pairwise evLe (relayEvents sched u d) ∧
    (∀ e ∈ relayEvents sched u d, 4 ≤ rank e) ∧
    (relayEvents sched u d).countP isTerm ≤ 1 ∧
    (relayExit u d = .ok → (relayEvents sched u d).countP isTerm = 1) ∧
    Ev.connected ∈ relayEvents sched u d := by
  have hulr : ∀ e ∈ (copyR u).1.map Ev.upload, rank e = 5 := fun e he => mem_map_upload he
  have hdlr : ∀ e ∈ (copyR d).1.map Ev.download, rank e = 5 :=
    fun e he => mem_map_download he
  have hbase : List.Pairwise evLe
      (interleave sched ((copyR u).1.map Ev.upload) ((copyR d).1.map Ev.download)) :=
    pairwise_interleave sched _ _
      (pairwise_evLe_of_rank (pairwise_rank_of_const _ 5 hulr))
      (pairwise_evLe_of_rank (pairwise_rank_of_const _ 5 hdlr))
      (fun x hx y hy => Or.inl (by rw [mem_map_upload hx, mem_map_download hy]))
      (fun y hy x hx => Or.inl (by rw [mem_map_download hy, mem_map_upload hx]))
  have hbasemem : ∀ e ∈ interleave sched ((copyR u).1.map Ev.upload)
      ((copyR d).1.map Ev.download), rank e = 5 := by
    intro e he
    rcases (mem_interleave sched _ _).mp he with h | h
    · exact mem_map_upload h
    · exact mem_map_download h
  have hbasecnt : (interleave sched ((copyR u).1.map Ev.upload)
      ((copyR d).1.map Ev.download)).countP isTerm = 0 := by
    rw [countP_interleave, countP_isTerm_map_upload, countP_isTerm_map_download]
  rcases relayEvents_cases sched u d with ⟨hsh, hexv⟩ | ⟨hsh, hexv⟩ |
    ⟨t, ht, hsh, hexv⟩
  · rw [hsh, hexv]
    refine ⟨?_, ?_, ?_, ?_, List.mem_cons_self _ _⟩
    · exact List.Pairwise.cons (fun b hb => Or.inl (by rw [hbasemem b hb]; decide)) hbase
    · intro e he
      rcases List.mem_cons.mp he with rfl | he
      · decide
      · rw [hbasemem e he]
        omega
    · simp [List.countP_cons, hbasecnt, isTerm]
    · intro habs
      cases habs
  · -- download-copy failure: Error inside the stream, uploads may follow
    rw [hsh, hexv]
    have hdlp : List.Pairwise evLe ((copyR d).1.map Ev.download ++ [Ev.error]) :=
      pairwise_evLe_of_rank (pairwise_rank_glue 5 (pairwise_rank_of_const _ 5 hdlr)
        (by simp) (fun a ha => le_of_eq (mem_map_download ha))
        (fun b hb => by simp at hb; rw [hb]; decide))
    have hpair : List.Pairwise evLe (interleave sched ((copyR u).1.map Ev.upload)
        ((copyR d).1.map Ev.download ++ [Ev.error])) := by
      refine pairwise_interleave sched _ _
        (pairwise_evLe_of_rank (pairwise_rank_of_const _ 5 hulr)) hdlp
        (fun x hx y hy => ?_) (fun y hy x hx => ?_)
      · rcases List.mem_append.mp hy with h | h
        · exact Or.inl (by rw [mem_map_upload hx, mem_map_download h])
        · simp at h
          exact Or.inl (by rw [mem_map_upload hx, h]; decide)
      · rcases List.mem_append.mp hy with h | h
        · exact Or.inl (by rw [mem_map_download h, mem_map_upload hx])
        · simp at h
          obtain ⟨n, _, rfl⟩ := List.mem_map.mp hx
          exact Or.inr ⟨h, n, rfl⟩
    refine ⟨?_, ?_, ?_, ?_, List.mem_cons_self _ _⟩
    · refine List.Pairwise.cons (fun b hb => ?_) hpair
      rcases (mem_interleave sched _ _).mp hb with h | h
      · exact Or.inl (by rw [mem_map_upload h]; decide)
      · rcases List.mem_append.mp h with h | h
        · exact Or.inl (by rw [mem_map_download h]; decide)
        · simp at h
          exact Or.inl (by rw [h]; decide)
    · intro e he
      rcases List.mem_cons.mp he with rfl | he
      · decide
      rcases (mem_interleave sched _ _).mp he with h | h
      · rw [mem_map_upload h]
        omega
      rcases List.mem_append.mp h with h | h
      · rw [mem_map_download h]
        omega
      · simp at h
        rw [h]
        decide
    · rw [List.countP_cons, countP_interleave, List.countP_append,
        countP_isTerm_map_upload, countP_isTerm_map_download]
      simp [isTerm]
    · intro _
      rw [List.countP_cons, countP_interleave, List.countP_append,
        countP_isTerm_map_upload, countP_isTerm_map_download]
      simp [isTerm]
  · -- clean download copy: the join puts the terminal last
    rw [hsh, hexv]
    have htr : rank t = 6 := by rcases ht with rfl | rfl <;> decide
    have htt : isTerm t = true := by rcases ht with rfl | rfl <;> decide
    refine ⟨?_, ?_, ?_, ?_, List.mem_cons_self _ _⟩
    · refine List.Pairwise.cons (fun b hb => ?_) ?_
      · rcases List.mem_append.mp hb with h | h
        · exact Or.inl (by rw [hbasemem b h]; decide)
        · simp at h
          subst h
          exact Or.inl (by rw [htr]; decide)
      · refine pairwise_evLe_glue 5 hbase (by simp)
          (fun a ha => le_of_eq (hbasemem a ha)) ?_
        intro b hb
        simp at hb
        subst hb
        omega
    · intro e he
      rcases List.mem_cons.mp he with rfl | he
      · decide
      rcases List.mem_append.mp he with h | h
      · rw [hbasemem e h]
        omega
      · simp at h
        subst h
        omega
    · rw [List.countP_cons, List.countP_append, hbasecnt]
      simp [List.countP_cons, htt, show isTerm Ev.connected = false from rfl]
    · intro _
      rw [List.countP_cons, List.countP_append, hbasecnt]
      simp [List.countP_cons, htt, show isTerm Ev.connected = false from rfl]

theorem segInv_relay (sched : List Bool) (u d : List ReadRes) :
    SegInv (relayR sched u d) 4 ∧ Ev.connected ∈ events (relayR sched u d).1 := by
  obtain ⟨h1, h2, h3, h4, h5⟩ := relayEventsInv sched u d
  have hev : events (relayR sched u d).1 = relayEvents sched u d := events_relayR sched u d
  have hex : (relayR sched u d).2 = relayExit u d := rfl
  refine ⟨⟨by rw [hev]; exact h1, by rw [hev]; exact h2, by rw [hev]; exact h3,
    fun hok => by rw [hev]; exact h4 (by rw [hex] at hok; exact hok)⟩,
    by rw [hev]; exact h5⟩

/-- Invariant of the UDP relay segment: the ordering/terminal
invariant from stage 4 up, and every event is `Connected`, `Done` or
`Error`. -/
def UdpInv (r : List Act × Exit) : Prop :=
  SegInv r 4 ∧ ∀ e ∈ events r.1, e = Ev.connected ∨ e = Ev.done ∨ e = Ev.error

theorem udpInv_step (pre : List Act) (hpre : pre = [] ∨ pre = [Act.ev Ev.connected])
    (r : List Act × Exit) (h : UdpInv r) : UdpInv (pre ++ r.1, r.2) := by
  rcases hpre with rfl | rfl
  · simpa [UdpInv, SegInv] using h
  · obtain ⟨⟨hp, hm, hc, he⟩, hcases⟩ := h
    refine ⟨⟨?_, ?_, ?_, ?_⟩, ?_⟩
    · simp only [List.singleton_append, events_cons_ev]
      exact List.Pairwise.cons (fun b hb => Or.inl (hm b hb)) hp
    · intro e hee
      simp only [List.singleton_append, events_cons_ev] at hee
      rcases List.mem_cons.mp hee with rfl | hee
      · decide
      · exact hm e hee
    · simp only [List.singleton_append, events_cons_ev, List.countP_cons]
      simpa [isTerm] using hc
    · intro hok
      simp only [List.singleton_append, events_cons_ev, List.countP_cons]
      simpa [isTerm] using he hok
    · intro e hee
      simp only [List.singleton_append, events_cons_ev] at hee
      rcases List.mem_cons.mp hee with rfl | hee
      · exact Or.inl rfl
      · exact hcases e hee

theorem udpInv_pre_panicked (pre : List Act)
    (hpre : pre = [] ∨ pre = [Act.ev Ev.connected]) : UdpInv (pre, .panicked) := by
  rcases hpre with rfl | rfl <;>
    simp [UdpInv, SegInv, isTerm, rank]

theorem udpInv_all (s : List UdpStep) : ∀ c, UdpInv (udpR c s) := by
  induction s with
  | nil =>
    intro c
    simp [udpR, UdpInv, SegInv]
  | cons step rest ih =>
    intro c
    cases step with
    | ready =>
      show UdpInv ([Act.ev .done], .ok)
      refine ⟨⟨?_, ?_, ?_, ?_⟩, ?_⟩ <;> simp [SegInv, isTerm, rank]
    | recvErr =>
      show UdpInv ([Act.ev .error], .ok)
      refine ⟨⟨?_, ?_, ?_, ?_⟩, ?_⟩ <;> simp [SegInv, isTerm, rank]
    | dgram src bytes =>
      cases c with
      | none =>
        by_cases hb1 : bytes.length < 10
        · have heq : udpR none (.dgram src bytes :: rest) =
              ([Act.ev Ev.connected] ++ (udpR (some src) rest).1,
                (udpR (some src) rest).2) := by
            simp [udpR, hb1]
          rw [heq]
          exact udpInv_step _ (Or.inr rfl) _ (ih (some src))
        · by_cases hb2 : bytes[2]?.getD 0 = 0
          · cases hpar : socks_prase_host (bytes.drop 3) with
            | panics =>
              have heq : udpR none (.dgram src bytes :: rest) =
                  ([Act.ev Ev.connected], .panicked) := by
                simp [udpR, hb1, hb2, hpar]
              rw [heq]
              exact udpInv_pre_panicked _ (Or.inr rfl)
            | ret o =>
              cases o with
              | none =>
                have heq : udpR none (.dgram src bytes :: rest) =
                    ([Act.ev Ev.connected], .panicked) := by
                  simp [udpR, hb1, hb2, hpar]
                rw [heq]
                exact udpInv_pre_panicked _ (Or.inr rfl)
              | some v =>
                have heq : udpR none (.dgram src bytes :: rest) =
                    ([Act.ev Ev.connected] ++ (udpR (some src) rest).1,
                      (udpR (some src) rest).2) := by
                  simp [udpR, hb1, hb2, hpar]
                rw [heq]
                exact udpInv_step _ (Or.inr rfl) _ (ih (some src))
          · have heq : udpR none (.dgram src bytes :: rest) =
                ([Act.ev Ev.connected] ++ (udpR (some src) rest).1,
                  (udpR (some src) rest).2) := by
              simp [udpR, hb1, hb2]
            rw [heq]
            exact udpInv_step _ (Or.inr rfl) _ (ih (some src))
      | some cl0 =>
        by_cases hsrc : src = cl0
        · subst hsrc
          by_cases hb1 : bytes.length < 10
          · have heq : udpR (some src) (.dgram src bytes :: rest) =
                ([] ++ (udpR (some src) rest).1, (udpR (some src) rest).2) := by
              simp [udpR, hb1]
            rw [heq]
            exact udpInv_step _ (Or.inl rfl) _ (ih (some src))
          · by_cases hb2 : bytes[2]?.getD 0 = 0
            · cases hpar : socks_prase_host (bytes.drop 3) with
              | panics =>
                have heq : udpR (some src) (.dgram src bytes :: rest) =
                    ([], .panicked) := by
                  simp [udpR, hb1, hb2, hpar]
                rw [heq]
                exact udpInv_pre_panicked _ (Or.inl rfl)
              | ret o =>
                cases o with
                | none =>
                  have heq : udpR (some src) (.dgram src bytes :: rest) =
                      ([], .panicked) := by
                    simp [udpR, hb1, hb2, hpar]
                  rw [heq]
                  exact udpInv_pre_panicked _ (Or.inl rfl)
                | some v =>
                  have heq : udpR (some src) (.dgram src bytes :: rest) =
                      ([] ++ (udpR (some src) rest).1, (udpR (some src) rest).2) := by
                    simp [udpR, hb1, hb2, hpar]
                  rw [heq]
                  exact udpInv_step _ (Or.inl rfl) _ (ih (some src))
            · have heq : udpR (some src) (.dgram src bytes :: rest) =
                  ([] ++ (udpR (some src) rest).1, (udpR (some src) rest).2) := by
                simp [udpR, hb1, hb2]
              rw [heq]
              exact udpInv_step _ (Or.inl rfl) _ (ih (some src))
        · have heq : udpR (some cl0) (.dgram src bytes :: rest) =
              ([] ++ (udpR (some cl0) rest).1, (udpR (some cl0) rest).2) := by
            simp [udpR, hsrc]
          rw [heq]
          exact udpInv_step _ (Or.inl rfl) _ (ih (some cl0))

theorem rank_mem_replicate_retry {e : Ev} {k : Nat} (h : e ∈ List.replicate k Ev.retry) :
    rank e = 3 := by
  rw [List.eq_of_mem_replicate h]
  decide

/-- The dial phase ends in a lone `Error` after the retries (resolution
failure or exhausted candidates), or runs the success continuation
after the retries. -/
theorem dial_events (lk : Option (List DialOutcome)) (dnsW connW : List Act)
    (succ : List Act × Exit) (hdns : events dnsW = []) (hconn : events connW = []) :
    (∃ k, events (dialPhase lk dnsW connW succ).1 = List.replicate k Ev.retry ++ [Ev.error] ∧
      (dialPhase lk dnsW connW succ).2 = .ok) ∨
    (∃ k, events (dialPhase lk dnsW connW succ).1 =
        List.replicate k Ev.retry ++ events succ.1 ∧
      (dialPhase lk dnsW connW succ).2 = succ.2) := by
  cases lk with
  | none => exact Or.inl ⟨0, by simp [dialPhase, hdns], rfl⟩
  | some outs =>
    rcases hr : connectR outs with ⟨k, res⟩
    cases res with
    | connected i =>
      exact Or.inr ⟨k, by simp [dialPhase, hr], by simp [dialPhase, hr]⟩
    | ioErr =>
      exact Or.inl ⟨k, by simp [dialPhase, hr, hconn], by simp [dialPhase, hr]⟩
    | unreachable =>
      exact Or.inl ⟨k, by simp [dialPhase, hr, hconn], by simp [dialPhase, hr]⟩

/-- The properties of the `Recognized → Resolved → dial → relay`
phases shared by the HTTP, HTTPS and SOCKS5-TCP paths. -/
theorem resolvedProps (proto : Protocol) (lk : Option (List DialOutcome))
    (dnsW connW : List Act) (succ : List Act × Exit)
    (hdns : events dnsW = []) (hconn : events connW = [])
    (hs : SegInv succ 4) (hsc : Ev.connected ∈ events succ.1) :
    SegInv (resolvedPhase proto lk dnsW connW succ) 1 ∧
    (∀ n, Ev.upload n ∈ events (resolvedPhase proto lk dnsW connW succ).1 ∨
        Ev.download n ∈ events (resolvedPhase proto lk dnsW connW succ).1 →
      Ev.connected ∈ events (resolvedPhase proto lk dnsW connW succ).1) ∧
    Ev.resolved ∈ events (resolvedPhase proto lk dnsW connW succ).1 ∧
    Ev.recognized proto ∈ events (resolvedPhase proto lk dnsW connW succ).1 := by
  obtain ⟨hsp, hsm, hscnt, hsok⟩ := hs
  have hev : events (resolvedPhase proto lk dnsW connW succ).1 =
      Ev.recognized proto :: Ev.resolved :: events (dialPhase lk dnsW connW succ).1 := by
    simp [resolvedPhase]
  have hex : (resolvedPhase proto lk dnsW connW succ).2 =
      (dialPhase lk dnsW connW succ).2 := rfl
  rcases dial_events lk dnsW connW succ hdns hconn with ⟨k, hsh, hok⟩ | ⟨k, hsh, hok⟩
  · refine ⟨⟨?_, ?_, ?_, ?_⟩, ?_, ?_, ?_⟩
    · rw [hev, hsh]
      refine List.Pairwise.cons (fun b hb => ?_) (List.Pairwise.cons (fun b hb => ?_) ?_)
      · rcases List.mem_cons.mp hb with rfl | hb
        · exact Or.inl (by simp [rank])
        · simp only [List.mem_append] at hb
          rcases hb with hb | hb
          · exact Or.inl (by rw [rank_mem_replicate_retry hb]; simp [rank])
          · simp at hb
            exact Or.inl (by rw [hb]; simp [rank])
      · simp only [List.mem_append] at hb
        rcases hb with hb | hb
        · exact Or.inl (by rw [rank_mem_replicate_retry hb]; simp [rank])
        · simp at hb
          exact Or.inl (by rw [hb]; simp [rank])
      · refine pairwise_evLe_of_rank (pairwise_rank_glue 3
          (pairwise_rank_of_const _ 3 fun e he => rank_mem_replicate_retry he)
          (by simp) (fun a ha => le_of_eq (rank_mem_replicate_retry ha)) ?_)
        intro b hb
        simp at hb
        rw [hb]
        decide
    · intro e he
      rw [hev, hsh] at he
      rcases List.mem_cons.mp he with rfl | he
      · simp [rank]
      rcases List.mem_cons.mp he with rfl | he
      · simp [rank]
      simp only [List.mem_append] at he
      rcases he with he | he
      · rw [rank_mem_replicate_retry he]; omega
      · simp at he; rw [he]; simp [rank]
    · rw [hev, hsh]
      simp [List.countP_cons, List.countP_append, countP_isTerm_replicate_retry, isTerm]
    · intro _
      rw [hev, hsh]
      simp [List.countP_cons, List.countP_append, countP_isTerm_replicate_retry, isTerm]
    · intro n hn
      exfalso
      rw [hev, hsh] at hn
      have absurdity : ∀ x : Ev, (x = Ev.upload n ∨ x = Ev.download n) →
          x ∈ Ev.recognized proto :: Ev.resolved ::
            (List.replicate k Ev.retry ++ [Ev.error]) → False := by
        intro x hx hmem
        rcases List.mem_cons.mp hmem with h | hmem'
        · rcases hx with rfl | rfl <;> simp at h
        rcases List.mem_cons.mp hmem' with h | hmem''
        · rcases hx with rfl | rfl <;> simp at h
        simp only [List.mem_append] at hmem''
        rcases hmem'' with h | h
        · have := List.eq_of_mem_replicate h
          rcases hx with rfl | rfl <;> simp at this
        · rcases hx with rfl | rfl <;> simp at h
      rcases hn with hn | hn
      · exact absurdity _ (Or.inl rfl) hn
      · exact absurdity _ (Or.inr rfl) hn
    · rw [hev]
      exact List.mem_cons_of_mem _ (List.mem_cons_self _ _)
    · rw [hev]
      exact List.mem_cons_self _ _
  · refine ⟨⟨?_, ?_, ?_, ?_⟩, ?_, ?_, ?_⟩
    · rw [hev, hsh]
      refine List.Pairwise.cons (fun b hb => ?_) (List.Pairwise.cons (fun b hb => ?_) ?_)
      · rcases List.mem_cons.mp hb with rfl | hb
        · exact Or.inl (by simp [rank])
        · simp only [List.mem_append] at hb
          rcases hb with hb | hb
          · exact Or.inl (by rw [rank_mem_replicate_retry hb]; simp [rank])
          · exact Or.inl (le_trans (by simp [rank]) (hsm b hb))
      · simp only [List.mem_append] at hb
        rcases hb with hb | hb
        · exact Or.inl (by rw [rank_mem_replicate_retry hb]; simp [rank])
        · exact Or.inl (le_trans (by simp [rank]) (hsm b hb))
      · exact pairwise_evLe_glue 3
          (pairwise_evLe_of_rank
            (pairwise_rank_of_const _ 3 fun e he => rank_mem_replicate_retry he)) hsp
          (fun a ha => le_of_eq (rank_mem_replicate_retry ha))
          (fun b hb => le_trans (by decide) (hsm b hb))
    · intro e he
      rw [hev, hsh] at he
      rcases List.mem_cons.mp he with rfl | he
      · simp [rank]
      rcases List.mem_cons.mp he with rfl | he
      · simp [rank]
      simp only [List.mem_append] at he
      rcases he with he | he
      · rw [rank_mem_replicate_retry he]; omega
      · exact le_trans (by decide) (hsm e he)
    · rw [hev, hsh]
      simp only [List.countP_cons, List.countP_append, countP_isTerm_replicate_retry]
      simpa [isTerm] using hscnt
    · intro hokk
      rw [hex, hok] at hokk
      rw [hev, hsh]
      simp only [List.countP_cons, List.countP_append, countP_isTerm_replicate_retry]
      simpa [isTerm] using hsok hokk
    · intro n hn
      rw [hev, hsh]
      have : Ev.connected ∈ List.replicate k Ev.retry ++ events succ.1 :=
        List.mem_append_right _ hsc
      exact List.mem_cons_of_mem _ (List.mem_cons_of_mem _ this)
    · rw [hev]
      exact List.mem_cons_of_mem _ (List.mem_cons_self _ _)
    · rw [hev]
      exact List.mem_cons_self _ _

theorem segInv_actCons (a : Act) (ha : Act.evOf a = none) (r : List Act × Exit) (lo : Nat)
    (h : SegInv r lo) : events (a :: r.1) = events r.1 := by
  simp [events, List.filterMap_cons, ha]

/-- The properties of `socks_handle_request`'s trace. -/
theorem socksReqProps (o : Oracle) :
    List.Pairwise evLe (events (socksReqPhase o).1) ∧
    (∀ e ∈ events (socksReqPhase o).1, 1 ≤ rank e) ∧
    (events (socksReqPhase o).1).countP isTerm ≤ 1 ∧
    ((socksReqPhase o).2 = .ok → reqUnknown o = false →
      (events (socksReqPhase o).1).countP isTerm = 1) ∧
    (∀ n, Ev.upload n ∈ events (socksReqPhase o).1 ∨
        Ev.download n ∈ events (socksReqPhase o).1 →
      Ev.connected ∈ events (socksReqPhase o).1) ∧
    (Ev.resolved ∈ events (socksReqPhase o).1 →
      ∃ p, Ev.recognized p ∈ events (socksReqPhase o).1) ∧
    (Ev.connected ∈ events (socksReqPhase o).1 →
      Ev.resolved ∈ events (socksReqPhase o).1 ∨
        Ev.recognized .socks5Udp ∈ events (socksReqPhase o).1) := by
  cases hreq : o.reqRead with
  | none =>
    have heq : socksReqPhase o = ([Act.ev .error], .ok) := by simp [socksReqPhase, hreq]
    rw [heq]
    refine ⟨?_, ?_, ?_, ?_, ?_, ?_, ?_⟩ <;> simp [isTerm, rank]
  | some req =>
    cases hpar : socks_prase_request req with
    | panics =>
      have heq : socksReqPhase o = ([], .panicked) := by simp [socksReqPhase, hreq, hpar]
      rw [heq]
      refine ⟨?_, ?_, ?_, ?_, ?_, ?_, ?_⟩ <;> simp [isTerm, rank]
    | ret pres =>
      cases pres with
      | none =>
        have heq : socksReqPhase o = ([], .panicked) := by simp [socksReqPhase, hreq, hpar]
        rw [heq]
        refine ⟨?_, ?_, ?_, ?_, ?_, ?_, ?_⟩ <;> simp [isTerm, rank]
      | some v =>
        obtain ⟨cmd, hostinfo⟩ := v
        by_cases h1 : cmd = 1
        · subst h1
          have heq : socksReqPhase o = socksTcpPhase o req := by
            simp [socksReqPhase, hreq, hpar]
          have hrel := segInv_relay o.relaySched o.up o.down
          have hcw : Act.evOf (Act.cw (build_socks_response 0 o.boundAddr)) = none := rfl
          have hevc := segInv_actCons _ hcw (relayR o.relaySched o.up o.down) 4 hrel.1
          have hsucc : SegInv (Act.cw (build_socks_response 0 o.boundAddr) ::
              (relayR o.relaySched o.up o.down).1, (relayR o.relaySched o.up o.down).2)
              4 := by
            obtain ⟨p1, p2, p3, p4⟩ := hrel.1
            exact ⟨by rw [hevc]; exact p1, by rw [hevc]; exact p2, by rw [hevc]; exact p3,
              fun hok => by rw [hevc]; exact p4 hok⟩
          have hconn : Ev.connected ∈
              events ((Act.cw (build_socks_response 0 o.boundAddr) ::
                (relayR o.relaySched o.up o.down).1,
                (relayR o.relaySched o.up o.down).2)).1 := by
            rw [hevc]
            exact hrel.2
          have hres := resolvedProps .socks5Tcp o.lookup [Act.cw (req.set 1 4)]
            [Act.cw (req.set 1 4)] _ (by simp) (by simp) hsucc hconn
          obtain ⟨⟨p1, p2, p3, p4⟩, p5, p6, p7⟩ := hres
          rw [heq]
          exact ⟨p1, p2, p3, fun hok _ => p4 hok, p5, fun _ => ⟨_, p7⟩, fun _ => Or.inl p6⟩
        · by_cases h3 : cmd = 3
          · subst h3
            have heq : socksReqPhase o = socksUdpPhase o := by
              simp [socksReqPhase, hreq, hpar, h1]
            rw [heq]
            cases hbind : o.udpBindOk with
            | false =>
              have heq2 : socksUdpPhase o = ([Act.ev .error], .ok) := by
                simp [socksUdpPhase, hbind]
              rw [heq2]
              refine ⟨?_, ?_, ?_, ?_, ?_, ?_, ?_⟩ <;> simp [isTerm, rank]
            | true =>
              have heq2 : socksUdpPhase o =
                  (Act.ev (.recognized .socks5Udp) ::
                    Act.cw (build_socks_response 0 o.udpBound) :: (udpR none o.udp).1,
                    (udpR none o.udp).2) := by
                simp [socksUdpPhase, hbind]
              rw [heq2]
              obtain ⟨⟨u1, u2, u3, u4⟩, ucases⟩ := udpInv_all o.udp none
              have hevents : events (Act.ev (.recognized .socks5Udp) ::
                  Act.cw (build_socks_response 0 o.udpBound) :: (udpR none o.udp).1) =
                  Ev.recognized .socks5Udp :: events (udpR none o.udp).1 := by
                simp
              rw [hevents]
              refine ⟨?_, ?_, ?_, ?_, ?_, ?_, ?_⟩
              · exact List.Pairwise.cons
                  (fun b hb => Or.inl (le_trans (by decide) (u2 b hb))) u1
              · intro e he
                rcases List.mem_cons.mp he with rfl | he
                · decide
                · exact le_trans (by decide) (u2 e he)
              · simpa [List.countP_cons, isTerm] using u3
              · intro hok _
                simpa [List.countP_cons, isTerm] using u4 hok
              · intro n hn
                exfalso
                rcases hn with hn | hn <;>
                  rcases List.mem_cons.mp hn with h | hn'
                · simp at h
                · rcases ucases _ hn' with h | h | h <;> simp at h
                · simp at h
                · rcases ucases _ hn' with h | h | h <;> simp at h
              · intro hres
                exfalso
                rcases List.mem_cons.mp hres with h | hres'
                · simp at h
                · rcases ucases _ hres' with h | h | h <;> simp at h
              · intro _
                exact Or.inr (List.mem_cons_self _ _)
          · have heq : socksReqPhase o = ([], .ok) := by
              simp [socksReqPhase, hreq, hpar, h1, h3]
            have hru : reqUnknown o = true := by
              simp [reqUnknown, hreq, hpar, h1, h3]
            rw [heq]
            refine ⟨?_, ?_, ?_, ?_, ?_, ?_, ?_⟩ <;> simp [isTerm, rank, hru]

/-- `resolvedProps` specialised to the success continuation every
caller uses: one non-event action (a protocol write) followed by the
relay. -/
theorem resolvedRelayProps (proto : Protocol) (lk : Option (List DialOutcome))
    (dnsW connW : List Act) (a : Act) (ha : Act.evOf a = none) (sched : List Bool)
    (u d : List ReadRes) (hdns : events dnsW = []) (hconn : events connW = []) :
    SegInv (resolvedPhase proto lk dnsW connW (a :: (relayR sched u d).1, (relayR sched u d).2)) 1 ∧
    (∀ n, Ev.upload n ∈
        events (resolvedPhase proto lk dnsW connW (a :: (relayR sched u d).1, (relayR sched u d).2)).1 ∨
        Ev.download n ∈
        events (resolvedPhase proto lk dnsW connW (a :: (relayR sched u d).1, (relayR sched u d).2)).1 →
      Ev.connected ∈
        events (resolvedPhase proto lk dnsW connW (a :: (relayR sched u d).1, (relayR sched u d).2)).1) ∧
    Ev.resolved ∈
      events (resolvedPhase proto lk dnsW connW (a :: (relayR sched u d).1, (relayR sched u d).2)).1 ∧
    Ev.recognized proto ∈
      events (resolvedPhase proto lk dnsW connW (a :: (relayR sched u d).1, (relayR sched u d).2)).1 := by
  have hrel := segInv_relay sched u d
  have hevc := segInv_actCons a ha (relayR sched u d) 4 hrel.1
  have hsucc : SegInv (a :: (relayR sched u d).1, (relayR sched u d).2) 4 := by
    obtain ⟨p1, p2, p3, p4⟩ := hrel.1
    exact ⟨by rw [hevc]; exact p1, by rw [hevc]; exact p2, by rw [hevc]; exact p3,
      fun hok => by rw [hevc]; exact p4 hok⟩
  have hcmem : Ev.connected ∈ events ((a :: (relayR sched u d).1, (relayR sched u d).2)).1 := by
    rw [hevc]
    exact hrel.2
  exact resolvedProps proto lk dnsW connW _ hdns hconn hsucc hcmem

/-- The properties of `handle`'s trace after the `Received` event. -/
theorem coreProps (o : Oracle) (bytes : List Nat) (hfr : o.firstRead = some bytes)
    (hne : bytes.isEmpty = false) :
    List.Pairwise evLe (events (handleCore o bytes).1) ∧
    (∀ e ∈ events (handleCore o bytes).1, 1 ≤ rank e) ∧
    (events (handleCore o bytes).1).countP isTerm ≤ 1 ∧
    ((handleCore o bytes).2 = .ok → unknownCmd o = false →
      (events (handleCore o bytes).1).countP isTerm = 1) ∧
    (∀ n, Ev.upload n ∈ events (handleCore o bytes).1 ∨
        Ev.download n ∈ events (handleCore o bytes).1 →
      Ev.connected ∈ events (handleCore o bytes).1) ∧
    (Ev.resolved ∈ events (handleCore o bytes).1 →
      ∃ p, Ev.recognized p ∈ events (handleCore o bytes).1) ∧
    (Ev.connected ∈ events (handleCore o bytes).1 →
      Ev.resolved ∈ events (handleCore o bytes).1 ∨
        Ev.recognized .socks5Udp ∈ events (handleCore o bytes).1) := by
  by_cases hlen : bytes.length < 3
  · have heq : handleCore o bytes = ([Act.ev .error], .ok) := by simp [handleCore, hlen]
    rw [heq]
    refine ⟨?_, ?_, ?_, ?_, ?_, ?_, ?_⟩ <;> simp [isTerm, rank]
  · by_cases h5 : bytes.head?.getD 0 = 5
    · by_cases hct : (0 : Nat) ∈ bytes.drop 2
      · have heq : handleCore o bytes =
            (Act.cw [5, 0] :: (socksReqPhase o).1, (socksReqPhase o).2) := by
          simp [handleCore, hlen, h5, hct]
        have hueq : unknownCmd o = reqUnknown o := by
          simp [unknownCmd, hfr, hne, hlen, h5, hct]
        obtain ⟨s1, s2, s3, s4, s5, s6, s7⟩ := socksReqProps o
        rw [heq, hueq]
        simpa using ⟨s1, s2, s3, s4, s5, s6, s7⟩
      · have heq : handleCore o bytes = ([Act.cw [5, 255], Act.ev .error], .ok) := by
          simp [handleCore, hlen, h5, hct]
        rw [heq]
        refine ⟨?_, ?_, ?_, ?_, ?_, ?_, ?_⟩ <;> simp [isTerm, rank]
    · by_cases hutf : utf8Valid (List.take 16 bytes) = true
      · cases haddr : http_addr bytes with
        | none =>
          have heq : handleCore o bytes = ([], .panicked) := by
            simp [handleCore, hlen, h5, hutf, haddr]
          rw [heq]
          refine ⟨?_, ?_, ?_, ?_, ?_, ?_, ?_⟩ <;> simp [isTerm, rank]
        | some a =>
          by_cases hc7 : List.take 7 bytes = connectBytes
          · have heq : handleCore o bytes = resolvedPhase .https o.lookup
                [Act.cw notFoundReply] [Act.cw serverErrReply]
                (Act.cw estab :: (relayR o.relaySched o.up o.down).1,
                  (relayR o.relaySched o.up o.down).2) := by
              simp [handleCore, hlen, h5, hutf, haddr, hc7]
            obtain ⟨⟨p1, p2, p3, p4⟩, p5, p6, p7⟩ := resolvedRelayProps .https o.lookup
              [Act.cw notFoundReply] [Act.cw serverErrReply] (Act.cw estab) rfl
              o.relaySched o.up o.down (by simp) (by simp)
            rw [heq]
            exact ⟨p1, p2, p3, fun hok _ => p4 hok, p5, fun _ => ⟨_, p7⟩, fun _ => Or.inl p6⟩
          · have heq : handleCore o bytes = resolvedPhase .http o.lookup
                [Act.cw notFoundReply] [Act.cw serverErrReply]
                (Act.rw bytes :: (relayR o.relaySched o.up o.down).1,
                  (relayR o.relaySched o.up o.down).2) := by
              simp [handleCore, hlen, h5, hutf, haddr, hc7]
            obtain ⟨⟨p1, p2, p3, p4⟩, p5, p6, p7⟩ := resolvedRelayProps .http o.lookup
              [Act.cw notFoundReply] [Act.cw serverErrReply] (Act.rw bytes) rfl
              o.relaySched o.up o.down (by simp) (by simp)
            rw [heq]
            exact ⟨p1, p2, p3, fun hok _ => p4 hok, p5, fun _ => ⟨_, p7⟩, fun _ => Or.inl p6⟩
      · have heq : handleCore o bytes = ([Act.ev .error], .ok) := by
          simp [handleCore, hlen, h5, hutf]
        rw [heq]
        refine ⟨?_, ?_, ?_, ?_, ?_, ?_, ?_⟩ <;> simp [isTerm, rank]

/-- The download-side bus events of the older generation's relay
(`copy_down`, handle.rs:209-237): the reported chunk sizes as
`Download` events, then the `Error("IO timeout")` event when the copy
ended on a timeout. -/
def inner_down_events (d : List ReadRes) : List Ev :=
  (copy_down d).1.map Ev.download ++ (if (copy_down d).2.1 then [Ev.error] else [])

/-- The terminal `inner_handle` emits after joining both copies
(handle.rs:172-175): `Done` when both copies returned `Ok` — as
`copy_down` does after its IO-timeout `Error` — otherwise the copy
error propagates and `handle` emits `Error`. -/
def inner_join_term (upOk downOk : Bool) : Ev :=
  if upOk && downOk then Ev.done else Ev.error

/-- In a pairwise `evLe`-ordered trace with at most one terminal,
nothing follows a `Done`. -/
theorem after_done_nil (l : List Ev) (hp : List.Pairwise evLe l)
    (hc : l.countP isTerm ≤ 1) :
    ∀ l1 l2, l = l1 ++ Ev.done :: l2 → l2 = [] := by
  intro l1 l2 h
  subst h
  obtain ⟨hrel, _⟩ := List.pairwise_cons.mp (List.pairwise_append.mp hp).2.1
  have hcnt : l2.countP isTerm = 0 := by
    simp [List.countP_append, List.countP_cons, isTerm] at hc
    omega
  rw [List.eq_nil_iff_forall_not_mem]
  intro x hx
  have hnt := List.countP_eq_zero.mp hcnt x hx
  apply hnt
  rcases hrel x hx with hr | ⟨hde, _⟩
  · cases x <;> first | rfl | (exfalso; simp [rank] at hr)
  · simp at hde

/-- In a pairwise `evLe`-ordered trace with at most one terminal, only
`Upload` events can follow an `Error` (the un-joined upload thread's
reports). -/
theorem after_error_uploads (l : List Ev) (hp : List.Pairwise evLe l)
    (hc : l.countP isTerm ≤ 1) :
    ∀ l1 l2, l = l1 ++ Ev.error :: l2 → ∀ x ∈ l2, ∃ n, x = Ev.upload n := by
  intro l1 l2 h x hx
  subst h
  obtain ⟨hrel, _⟩ := List.pairwise_cons.mp (List.pairwise_append.mp hp).2.1
  have hcnt : l2.countP isTerm = 0 := by
    simp [List.countP_append, List.countP_cons, isTerm] at hc
    omega
  have hnt := List.countP_eq_zero.mp hcnt x hx
  rcases hrel x hx with hr | ⟨_, n, hup⟩
  · exfalso
    apply hnt
    cases x <;> first | rfl | (exfalso; simp [rank] at hr)
  · exact ⟨n, hup⟩

/-- C1 (corrected).  Over every oracle: the first event emitted, if
any, is `Received`, and `Received` is never repeated; event stages are
pairwise ordered by `evLe` — monotone in the order Received,
Recognized, Resolved, Retry, Connected, Upload/Download, terminal,
except that `Upload` events may follow the `Error` terminal, because a
download-copy failure makes `tcp_relay` propagate without joining the
upload thread, which keeps reporting (handler.rs:338-346); every
`Resolved` has an earlier `Recognized`; every `Connected` is on a path
with a `Resolved` except the SOCKS5 UDP path (recognised as such);
every `Upload`/`Download` has a `Connected`; at most one terminal
event is emitted; nothing follows `Done` and only `Upload` events
follow `Error`; exactly one terminal is emitted whenever the handler
returned normally, emitted at least one event, and was not on the
ignored-unknown-SOCKS5-command path.  The older handle.rs generation
additionally violates even this on an IO timeout of the download copy:
`copy_down` emits `Error("IO timeout")` yet returns `Ok`, after which
the join emits `Done` — an `Error` followed by a `Done` (final
conjunct, over `inner_down_events` and `inner_join_term`). -/
theorem c1_event_order_amended (o : Oracle) :
    (events (handleM o).1 ≠ [] → (events (handleM o).1).head? = some Ev.received) ∧
    Ev.received ∉ (events (handleM o).1).tail ∧
    List.Pairwise evLe (events (handleM o).1) ∧
    (Ev.resolved ∈ events (handleM o).1 → ∃ p, Ev.recognized p ∈ events (handleM o).1) ∧
    (Ev.connected ∈ events (handleM o).1 →
      Ev.resolved ∈ events (handleM o).1 ∨
        Ev.recognized .socks5Udp ∈ events (handleM o).1) ∧
    (∀ n, Ev.upload n ∈ events (handleM o).1 ∨ Ev.download n ∈ events (handleM o).1 →
      Ev.connected ∈ events (handleM o).1) ∧
    (events (handleM o).1).countP isTerm ≤ 1 ∧
    (∀ l1 l2, events (handleM o).1 = l1 ++ Ev.done :: l2 → l2 = []) ∧
    (∀ l1 l2, events (handleM o).1 = l1 ++ Ev.error :: l2 →
      ∀ x ∈ l2, ∃ n, x = Ev.upload n) ∧
    ((handleM o).2 = .ok → unknownCmd o = false → events (handleM o).1 ≠ [] →
      (events (handleM o).1).countP isTerm = 1) ∧
    (∀ rest, inner_down_events (ReadRes.err .timedOut :: rest) = [Ev.error] ∧
      inner_join_term true true = Ev.done) := by
  have hmain :
      (events (handleM o).1 ≠ [] → (events (handleM o).1).head? = some Ev.received) ∧
      Ev.received ∉ (events (handleM o).1).tail ∧
      List.Pairwise evLe (events (handleM o).1) ∧
      (Ev.resolved ∈ events (handleM o).1 →
        ∃ p, Ev.recognized p ∈ events (handleM o).1) ∧
      (Ev.connected ∈ events (handleM o).1 →
        Ev.resolved ∈ events (handleM o).1 ∨
          Ev.recognized .socks5Udp ∈ events (handleM o).1) ∧
      (∀ n, Ev.upload n ∈ events (handleM o).1 ∨
          Ev.download n ∈ events (handleM o).1 →
        Ev.connected ∈ events (handleM o).1) ∧
      (events (handleM o).1).countP isTerm ≤ 1 ∧
      ((handleM o).2 = .ok → unknownCmd o = false → events (handleM o).1 ≠ [] →
        (events (handleM o).1).countP isTerm = 1) := by
      cases hfr : o.firstRead with
      | none =>
        have heq : handleM o = ([], .ok) := by simp [handleM, hfr]
        rw [heq]
        refine ⟨?_, ?_, ?_, ?_, ?_, ?_, ?_, ?_⟩ <;> simp [isTerm, rank]
      | some bytes =>
        by_cases hbe : bytes.isEmpty = true
        · have heq : handleM o = ([], .ok) := by simp [handleM, hfr, hbe]
          rw [heq]
          refine ⟨?_, ?_, ?_, ?_, ?_, ?_, ?_, ?_⟩ <;> simp [isTerm, rank]
        · have hne : bytes.isEmpty = false := by simpa using hbe
          have heq : handleM o =
              (Act.ev .received :: (handleCore o bytes).1, (handleCore o bytes).2) := by
            simp [handleM, hfr, hne]
          obtain ⟨c1, c2, c3, c4, c5, c6, c7⟩ := coreProps o bytes hfr hne
          rw [heq]
          refine ⟨?_, ?_, ?_, ?_, ?_, ?_, ?_, ?_⟩
          · intro _
            rfl
          · intro hmem
            have := c2 _ hmem
            simp [rank] at this
          · exact List.Pairwise.cons (fun b _ => Or.inl (Nat.zero_le _)) c1
          · intro hres
            rcases List.mem_cons.mp hres with h | hres'
            · exact absurd h (by simp)
            · obtain ⟨p, hp⟩ := c6 hres'
              exact ⟨p, List.mem_cons_of_mem _ hp⟩
          · intro hcn
            rcases List.mem_cons.mp hcn with h | hcn'
            · exact absurd h (by simp)
            · rcases c7 hcn' with h | h
              · exact Or.inl (List.mem_cons_of_mem _ h)
              · exact Or.inr (List.mem_cons_of_mem _ h)
          · intro n hn
            have hn' : Ev.upload n ∈ events (handleCore o bytes).1 ∨
                Ev.download n ∈ events (handleCore o bytes).1 := by
              rcases hn with hn | hn
              · rcases List.mem_cons.mp hn with h | hn'
                · exact absurd h (by simp)
                · exact Or.inl hn'
              · rcases List.mem_cons.mp hn with h | hn'
                · exact absurd h (by simp)
                · exact Or.inr hn'
            exact List.mem_cons_of_mem _ (c5 n hn')
          · simpa [List.countP_cons, isTerm] using c3
          · intro hok hcmd _
            simpa [List.countP_cons, isTerm] using c4 hok hcmd
  obtain ⟨m1, m2, m3, m4, m5, m6, m7, m8⟩ := hmain
  exact ⟨m1, m2, m3, m4, m5, m6, m7,
    after_done_nil _ m3 m7, after_error_uploads _ m3 m7, m8, fun rest => ⟨rfl, rfl⟩⟩

/-- An oracle whose SOCKS5 request carries the unhandled CMD 2
(BIND): greeting `05 01 00`, request `05 02 00 01 01 02 03 04 00 50`. -/
def oracleCmd2 : Oracle :=
  ⟨some [5, 1, 0], none, [], [], [], some [5, 2, 0, 1, 1, 2, 3, 4, 0, 80],
    (unspecified4, 0), true, (unspecified4, 0), []⟩

/-- C1 counterexample.  On the SOCKS5 BIND request the handler returns
normally after emitting only `Received` (and the greeting reply): no
terminal event is ever emitted for this accepted connection, so
"exactly one terminal event (Done or Error) is emitted" is false. -/
theorem c1_counterexample :
    handleM oracleCmd2 = ([Act.ev .received, Act.cw [5, 0]], .ok) ∧
    (events (handleM oracleCmd2).1).countP isTerm = 0 := by
  exact ⟨by decide, by decide⟩

/-- The CONNECT request of `oracleHttps` with a one-chunk upload, a
failing download copy, and a schedule that lets the upload thread
report after the download copy's error: the trace carries
`Upload(7)` after the `Error` terminal. -/
def oracleDownErr : Oracle :=
  ⟨some [67, 79, 78, 78, 69, 67, 84, 32, 97, 58, 49, 32, 120], some [.connOk],
    [.ok 7], [.err .other], [false, true], none, (unspecified4, 0), true,
    (unspecified4, 0), []⟩

/-- Witness for C1: on the concrete successful CONNECT the trace
starts with `Received` and has exactly one terminal event; on the
failing-download run the events after the `Error` are all uploads. -/
theorem c1_event_order_amended_witness :
    (events (handleM oracleHttps).1).head? = some Ev.received ∧
    (events (handleM oracleHttps).1).countP isTerm = 1 ∧
    (∀ x ∈ [Ev.upload 7], ∃ n, x = Ev.upload n) := by
  refine ⟨(c1_event_order_amended oracleHttps).1 (by decide),
    (c1_event_order_amended oracleHttps).2.2.2.2.2.2.2.2.2.1 (by decide) (by decide)
      (by decide), ?_⟩
  exact (c1_event_order_amended oracleDownErr).2.2.2.2.2.2.2.2.1
    [Ev.received, Ev.recognized .https, Ev.resolved, Ev.connected] [Ev.upload 7]
    (by decide)
